import Mathlib

/-!
Shallow embedding of the quantitative signal and risk engine of the
trading_ai_bot repository, together with proofs about its behaviour.

Conventions:
* Python floats are modelled as exact rationals (`ℚ`).
* Python dictionaries whose keys may be absent are modelled as structures
  with `Option` fields; `d.get(k, v)` becomes `Option.getD`.
* Division on `ℚ` is total (`x / 0 = 0`); every division performed by the
  source is reproduced together with the guard the source places around it.
* `datetime.now()` is modelled by threading an explicit `now` argument.
-/

set_option linter.unusedVariables false

namespace TradingBot

/-! ## Technical analysis tool (`tools/technical_analysis/tool.py`) -/

/-- `np.diff`: consecutive differences of a list of prices. -/
def npDiff : List ℚ → List ℚ
  | [] => []
  | [_] => []
  | a :: b :: rest => (b - a) :: npDiff (b :: rest)

/-- Python slice `xs[-n:]`: the last `n` elements of `xs` (everything when
`n` is `0`, mirroring `xs[-0:] = xs[0:]`, or when `n ≥ xs.length`). -/
def lastSlice (n : ℕ) (xs : List ℚ) : List ℚ :=
  if n = 0 then xs else xs.drop (xs.length - n)

/-- `np.mean`, with the empty-list case mapped to `0` (the source never
averages an empty slice for `period ≥ 1` and enough prices). -/
def npMean (xs : List ℚ) : ℚ := xs.sum / xs.length

/-- `TechnicalAnalysisTool.calculate_rsi` (tool.py lines 19–45). -/
def calculate_rsi (prices : List ℚ) (period : ℕ := 14) : ℚ :=
  if prices.length < period + 1 then 50
  else
    let deltas := npDiff prices
    let gains := deltas.map (fun d => if 0 < d then d else 0)
    let losses := deltas.map (fun d => if d < 0 then -d else 0)
    let avg_gain := npMean (lastSlice period gains)
    let avg_loss := npMean (lastSlice period losses)
    if avg_loss = 0 then 100
    else
      let rs := avg_gain / avg_loss
      100 - 100 / (1 + rs)

/-- One OHLCV candle as consumed by the volume-profile computation. -/
structure Candle where
  high : ℚ
  low : ℚ
  close : ℚ
  volume : ℚ
  deriving Repr, DecidableEq

/-- Python `round` to an integer: round-half-to-even (banker's rounding). -/
def pyRound (q : ℚ) : ℤ :=
  let f := ⌊q⌋
  let r := q - f
  if r < 1/2 then f
  else if 1/2 < r then f + 1
  else if Even f then f else f + 1

/-- Typical price `(high + low + close) / 3` of a candle. -/
def typicalPrice (c : Candle) : ℚ := (c.high + c.low + c.close) / 3

/-- Accumulate volume at a price level, preserving dict insertion order
(`price_volume_map[price_level] += candle['volume']`). -/
def assocAddVolume : List (ℤ × ℚ) → ℤ → ℚ → List (ℤ × ℚ)
  | [], k, v => [(k, v)]
  | (k2, v2) :: rest, k, v =>
      if k2 = k then (k2, v2 + v) :: rest
      else (k2, v2) :: assocAddVolume rest k v

/-- Stable insertion into a list sorted descending by accumulated volume:
the new element goes after every element with volume `≥` its own, matching
the stability of Python's `sorted(..., reverse=True)`. -/
def insertVolumeDesc (x : ℤ × ℚ) : List (ℤ × ℚ) → List (ℤ × ℚ)
  | [] => [x]
  | y :: ys => if y.2 < x.2 then x :: y :: ys else y :: insertVolumeDesc x ys

/-- Stable sort descending by accumulated volume. -/
def sortVolumeDesc (l : List (ℤ × ℚ)) : List (ℤ × ℚ) :=
  l.foldl (fun acc x => insertVolumeDesc x acc) []

/-- Sum of the volumes of the last 10 candles (`klines[-10:]`). -/
def recentVolume (klines : List Candle) : ℚ :=
  ((klines.drop (klines.length - 10)).map Candle.volume).sum

/-- Sum of the volumes of the 10 candles before those (`klines[-20:-10]`). -/
def previousVolume (klines : List Candle) : ℚ :=
  (((klines.drop (klines.length - 20)).take 10).map Candle.volume).sum

/-- Result dictionary of `calculate_volume_profile`; the early (empty-input)
return carries no `avg_volume` key, hence the `Option`. -/
structure VolumeProfileResult where
  vwap : ℚ
  volume_trend : String
  high_volume_nodes : List ℤ
  avg_volume : Option ℚ
  deriving Repr, DecidableEq

/-- `TechnicalAnalysisTool.calculate_volume_profile` (tool.py lines 126–183). -/
def calculate_volume_profile (klines : List Candle) : VolumeProfileResult :=
  if klines = [] then
    { vwap := 0, volume_trend := "neutral", high_volume_nodes := [], avg_volume := none }
  else
    let total_volume := (klines.map Candle.volume).sum
    let total_price_volume := (klines.map (fun c => typicalPrice c * c.volume)).sum
    let vwap := if 0 < total_volume then total_price_volume / total_volume else 0
    let n := klines.length
    let volume_trend :=
      if 20 ≤ n then
        let volume_ratio :=
          if 0 < previousVolume klines then recentVolume klines / previousVolume klines else 1
        if 13/10 < volume_ratio then "increasing"
        else if volume_ratio < 7/10 then "decreasing"
        else "stable"
      else "insufficient_data"
    let pvmap := (klines.drop (n - 50)).foldl
      (fun m c => assocAddVolume m (pyRound (c.close / 100) * 100) c.volume) []
    let nodes := ((sortVolumeDesc pvmap).take 3).map Prod.fst
    let avg := ((klines.drop (n - 20)).map Candle.volume).sum / (min 20 n : ℕ)
    { vwap := vwap, volume_trend := volume_trend,
      high_volume_nodes := nodes, avg_volume := some avg }

/-! ### Helper lemmas for the indicator proofs -/

theorem npDiff_length (l : List ℚ) : (npDiff l).length = l.length - 1 := by
  induction l with
  | nil => rfl
  | cons a t ih =>
    cases t with
    | nil => rfl
    | cons b r =>
      simp only [npDiff, List.length_cons] at ih ⊢
      omega

theorem lastSlice_map (f : ℚ → ℚ) (n : ℕ) (l : List ℚ) :
    lastSlice n (l.map f) = (lastSlice n l).map f := by
  unfold lastSlice
  by_cases h : n = 0
  · simp [h]
  · simp [h, List.map_drop]

theorem lastSlice_length (n : ℕ) (l : List ℚ) (h1 : 1 ≤ n) (h2 : n ≤ l.length) :
    (lastSlice n l).length = n := by
  unfold lastSlice
  rw [if_neg (by omega)]
  rw [List.length_drop]
  omega

theorem list_sum_eq_zero_iff (l : List ℚ) (h : ∀ x ∈ l, 0 ≤ x) :
    l.sum = 0 ↔ ∀ x ∈ l, x = 0 := by
  induction l with
  | nil => simp
  | cons a t ih =>
    simp only [List.sum_cons, List.mem_cons] at *
    have ha : 0 ≤ a := h a (Or.inl rfl)
    have ht : ∀ x ∈ t, 0 ≤ x := fun x hx => h x (Or.inr hx)
    have hts : 0 ≤ t.sum := List.sum_nonneg ht
    constructor
    · intro hsum
      have ha0 : a = 0 := by linarith [(ih ht).mpr, hts]
      have hts0 : t.sum = 0 := by linarith
      exact fun x hx => hx.elim (fun hxa => hxa ▸ ha0) (fun hxt => ((ih ht).mp hts0) x hxt)
    · intro hall
      have ha0 : a = 0 := hall a (Or.inl rfl)
      have hts0 : t.sum = 0 := (ih ht).mpr (fun x hx => hall x (Or.inr hx))
      rw [ha0, hts0, add_zero]

theorem rsi_loss_nonneg (period : ℕ) (l : List ℚ) :
    ∀ x ∈ lastSlice period (l.map (fun d => if d < 0 then -d else 0)), 0 ≤ x := by
  intro x hx
  rw [lastSlice_map] at hx
  simp only [List.mem_map] at hx
  obtain ⟨d, _, rfl⟩ := hx
  by_cases h : d < 0
  · simp only [if_pos h]; linarith
  · simp only [if_neg h]; exact le_refl 0

theorem rsi_gain_nonneg (period : ℕ) (l : List ℚ) :
    ∀ x ∈ lastSlice period (l.map (fun d => if 0 < d then d else 0)), 0 ≤ x := by
  intro x hx
  rw [lastSlice_map] at hx
  simp only [List.mem_map] at hx
  obtain ⟨d, _, rfl⟩ := hx
  by_cases h : 0 < d
  · simp only [if_pos h]; linarith
  · simp only [if_neg h]; exact le_refl 0

/-- The average loss over the window vanishes exactly when every delta in
the window is nonnegative. -/
theorem rsi_avg_loss_eq_zero_iff (prices : List ℚ) (period : ℕ)
    (hp : 1 ≤ period) (hlen : period + 1 ≤ prices.length) :
    npMean (lastSlice period ((npDiff prices).map (fun d => if d < 0 then -d else 0))) = 0
      ↔ ∀ d ∈ lastSlice period (npDiff prices), 0 ≤ d := by
  have hdl : period ≤ (npDiff prices).length := by
    rw [npDiff_length]; omega
  have hlenw : (lastSlice period (npDiff prices)).length = period :=
    lastSlice_length _ _ hp hdl
  rw [lastSlice_map]
  unfold npMean
  rw [List.length_map, hlenw]
  have hpq : ((period : ℚ)) ≠ 0 := by
    have : (0:ℚ) < (period : ℚ) := by exact_mod_cast (show 0 < period by omega)
    linarith
  rw [div_eq_zero_iff]
  have hnn : ∀ x ∈ (lastSlice period (npDiff prices)).map (fun d => if d < 0 then -d else 0), 0 ≤ x := by
    have := rsi_loss_nonneg period (npDiff prices)
    rwa [lastSlice_map] at this
  rw [list_sum_eq_zero_iff _ hnn]
  constructor
  · rintro (h | h)
    · intro d hd
      have := h _ (List.mem_map_of_mem _ hd)
      by_contra hneg
      push_neg at hneg
      rw [if_pos hneg] at this
      linarith
    · exact absurd h hpq
  · intro h
    left
    intro x hx
    simp only [List.mem_map] at hx
    obtain ⟨d, hd, rfl⟩ := hx
    rw [if_neg (not_lt.mpr (h d hd))]

/-- C7: with at least `period + 1` closing prices (and a positive period),
`calculate_rsi` lies in `[0, 100]`, and equals `100` exactly when every
price delta in the last `period`-length window is nonnegative. -/
theorem C7_rsi_range_and_hundred (prices : List ℚ) (period : ℕ)
    (hp : 1 ≤ period) (hlen : period + 1 ≤ prices.length) :
    (0 ≤ calculate_rsi prices period ∧ calculate_rsi prices period ≤ 100) ∧
    (calculate_rsi prices period = 100 ↔
      ∀ d ∈ lastSlice period (npDiff prices), 0 ≤ d) := by
  have hnotlt : ¬ prices.length < period + 1 := by omega
  have hiff := rsi_avg_loss_eq_zero_iff prices period hp hlen
  have hdl : period ≤ (npDiff prices).length := by
    rw [npDiff_length]; omega
  have hloss_nn : 0 ≤ npMean (lastSlice period ((npDiff prices).map (fun d => if d < 0 then -d else 0))) := by
    unfold npMean
    apply div_nonneg
    · exact List.sum_nonneg (rsi_loss_nonneg period (npDiff prices))
    · positivity
  have hgain_nn : 0 ≤ npMean (lastSlice period ((npDiff prices).map (fun d => if 0 < d then d else 0))) := by
    unfold npMean
    apply div_nonneg
    · exact List.sum_nonneg (rsi_gain_nonneg period (npDiff prices))
    · positivity
  simp only [calculate_rsi, if_neg hnotlt]
  by_cases hc : npMean (lastSlice period ((npDiff prices).map (fun d => if d < 0 then -d else 0))) = 0
  · rw [if_pos hc]
    refine ⟨⟨by norm_num, le_refl _⟩, ?_⟩
    simp only [hiff.mp hc]
    tauto
  · rw [if_neg hc]
    have hpos : 0 < npMean (lastSlice period ((npDiff prices).map (fun d => if d < 0 then -d else 0))) :=
      lt_of_le_of_ne hloss_nn (Ne.symm hc)
    set g := npMean (lastSlice period ((npDiff prices).map (fun d => if 0 < d then d else 0))) with hg
    set l := npMean (lastSlice period ((npDiff prices).map (fun d => if d < 0 then -d else 0))) with hl
    have hrs : 0 ≤ g / l := div_nonneg hgain_nn (le_of_lt hpos)
    have h1rs : (0:ℚ) < 1 + g / l := by linarith
    have hdivpos : 0 < 100 / (1 + g / l) := by positivity
    have hdivle : 100 / (1 + g / l) ≤ 100 := by
      rw [div_le_iff₀ h1rs]
      nlinarith
    refine ⟨⟨by linarith, by linarith⟩, ?_⟩
    constructor
    · intro h
      exfalso
      have : 100 / (1 + g / l) = 0 := by linarith
      rw [div_eq_zero_iff] at this
      rcases this with h2 | h2
      · norm_num at h2
      · linarith
    · intro h
      exact absurd (hiff.mpr h) hc

/-- C8 counterexample: the empty candle list is "fewer than 20 candles", yet
`calculate_volume_profile` reports the trend `"neutral"`, which is not one of
the four values the claim allows. -/
theorem C8_counterexample :
    (calculate_volume_profile []).volume_trend = "neutral" ∧
    "neutral" ∉ (["increasing", "decreasing", "stable", "insufficient_data"] : List String) := by
  exact ⟨rfl, by decide⟩

/-- C8 (amended): for every NON-EMPTY candle list the returned trend is one
of the four allowed values, is `"insufficient_data"` for fewer than 20
candles, and for at least 20 candles with positive prior-window volume is
classified by the volume ratio exactly as claimed.  (The empty list takes
the early-return branch whose trend is `"neutral"`.) -/
theorem C8_volume_trend_amended (klines : List Candle) (h : klines ≠ []) :
    (calculate_volume_profile klines).volume_trend ∈
      (["increasing", "decreasing", "stable", "insufficient_data"] : List String) ∧
    (klines.length < 20 →
      (calculate_volume_profile klines).volume_trend = "insufficient_data") ∧
    (20 ≤ klines.length → 0 < previousVolume klines →
      (((calculate_volume_profile klines).volume_trend = "increasing" ↔
          13/10 < recentVolume klines / previousVolume klines) ∧
       ((calculate_volume_profile klines).volume_trend = "decreasing" ↔
          recentVolume klines / previousVolume klines < 7/10) ∧
       ((calculate_volume_profile klines).volume_trend = "stable" ↔
          (7/10 ≤ recentVolume klines / previousVolume klines ∧
           recentVolume klines / previousVolume klines ≤ 13/10)))) := by
  have hproj : (calculate_volume_profile klines).volume_trend =
      (if 20 ≤ klines.length then
        (if 13/10 < (if 0 < previousVolume klines then
              recentVolume klines / previousVolume klines else 1)
         then "increasing"
         else if (if 0 < previousVolume klines then
              recentVolume klines / previousVolume klines else 1) < 7/10
         then "decreasing" else "stable")
       else "insufficient_data") := by
    simp only [calculate_volume_profile, if_neg h]
  rw [hproj]
  by_cases h20 : 20 ≤ klines.length
  · rw [if_pos h20]
    by_cases hprev : 0 < previousVolume klines
    · rw [if_pos hprev]
      by_cases hinc : 13/10 < recentVolume klines / previousVolume klines
      · rw [if_pos hinc]
        refine ⟨by decide, fun hlt => absurd h20 (by omega), fun _ _ => ?_⟩
        refine ⟨⟨fun _ => hinc, fun _ => rfl⟩, ?_, ?_⟩
        · constructor
          · intro heq; exact absurd heq (by decide)
          · intro hlt; linarith
        · constructor
          · intro heq; exact absurd heq (by decide)
          · rintro ⟨_, hle⟩; linarith
      · rw [if_neg hinc]
        by_cases hdec : recentVolume klines / previousVolume klines < 7/10
        · rw [if_pos hdec]
          refine ⟨by decide, fun hlt => absurd h20 (by omega), fun _ _ => ?_⟩
          refine ⟨?_, ⟨fun _ => hdec, fun _ => rfl⟩, ?_⟩
          · constructor
            · intro heq; exact absurd heq (by decide)
            · intro hgt; exact absurd hgt hinc
          · constructor
            · intro heq; exact absurd heq (by decide)
            · rintro ⟨hge, _⟩; linarith
        · rw [if_neg hdec]
          refine ⟨by decide, fun hlt => absurd h20 (by omega), fun _ _ => ?_⟩
          refine ⟨?_, ?_, fun _ => ⟨by linarith, by linarith⟩, fun _ => rfl⟩
          · constructor
            · intro heq; exact absurd heq (by decide)
            · intro hgt; exact absurd hgt hinc
          · constructor
            · intro heq; exact absurd heq (by decide)
            · intro hlt; exact absurd hlt hdec
    · rw [if_neg hprev]
      have h1 : ¬ (13/10 : ℚ) < 1 := by norm_num
      have h2 : ¬ (1 : ℚ) < 7/10 := by norm_num
      rw [if_neg h1, if_neg h2]
      refine ⟨by decide, fun hlt => absurd h20 (by omega), fun _ hp => absurd hp hprev⟩
  · rw [if_neg h20]
    exact ⟨by decide, fun _ => rfl, fun hge _ => absurd hge h20⟩

/-- C8 witness: the amended theorem applied to a concrete one-candle list. -/
theorem C8_witness :
    (calculate_volume_profile [⟨1, 1, 1, 1⟩]).volume_trend ∈
      (["increasing", "decreasing", "stable", "insufficient_data"] : List String) ∧
    (([⟨1, 1, 1, 1⟩] : List Candle).length < 20 →
      (calculate_volume_profile [⟨1, 1, 1, 1⟩]).volume_trend = "insufficient_data") ∧
    (20 ≤ ([⟨1, 1, 1, 1⟩] : List Candle).length →
      0 < previousVolume [⟨1, 1, 1, 1⟩] →
      (((calculate_volume_profile [⟨1, 1, 1, 1⟩]).volume_trend = "increasing" ↔
          13/10 < recentVolume [⟨1, 1, 1, 1⟩] / previousVolume [⟨1, 1, 1, 1⟩]) ∧
       ((calculate_volume_profile [⟨1, 1, 1, 1⟩]).volume_trend = "decreasing" ↔
          recentVolume [⟨1, 1, 1, 1⟩] / previousVolume [⟨1, 1, 1, 1⟩] < 7/10) ∧
       ((calculate_volume_profile [⟨1, 1, 1, 1⟩]).volume_trend = "stable" ↔
          (7/10 ≤ recentVolume [⟨1, 1, 1, 1⟩] / previousVolume [⟨1, 1, 1, 1⟩] ∧
           recentVolume [⟨1, 1, 1, 1⟩] / previousVolume [⟨1, 1, 1, 1⟩] ≤ 13/10)))) :=
  C8_volume_trend_amended [⟨1, 1, 1, 1⟩] (List.cons_ne_nil _ _)

/-- C7 witness: the theorem applied at `prices = [1, 2, 3]`, `period = 2`. -/
theorem C7_witness :
    (0 ≤ calculate_rsi [1, 2, 3] 2 ∧ calculate_rsi [1, 2, 3] 2 ≤ 100) ∧
    (calculate_rsi [1, 2, 3] 2 = 100 ↔
      ∀ d ∈ lastSlice 2 (npDiff [1, 2, 3]), 0 ≤ d) :=
  C7_rsi_range_and_hundred [1, 2, 3] 2 (by decide) (by decide)

/-! ## Risk manager (`core/risk_manager.py`)

The embedding keeps the state the Python object carries between calls.
Fields never read by the embedded methods (`config`, `logger`,
`correlation_limit`) are omitted; the f-string reason messages keep their
fixed text without the interpolated numbers. -/

/-- The `Position` dataclass (risk_manager.py lines 7–19). -/
structure Position where
  symbol : String
  side : String
  size : ℚ
  entry_price : ℚ
  stop_loss : ℚ
  take_profit : ℚ
  timestamp : ℕ
  confidence : ℚ
  risk_amount : ℚ
  expected_return : ℚ
  deriving Repr, DecidableEq

/-- A closed-trade record as appended by `close_position`. -/
structure TradeRecord where
  symbol : String
  side : String
  entry_price : ℚ
  close_price : ℚ
  size : ℚ
  pnl : ℚ
  timestamp : ℕ
  confidence : ℚ
  deriving Repr, DecidableEq

/-- The mutable state of a `RiskManager` instance. -/
structure RiskState where
  balance : ℚ
  max_risk_per_trade : ℚ
  max_portfolio_risk : ℚ
  max_daily_loss : ℚ
  min_risk_reward_ratio : ℚ
  max_positions : ℕ
  volatility_adjustment : Bool
  current_positions : List Position
  daily_pnl : ℚ
  daily_trades : ℕ
  max_daily_trades : ℕ
  trade_history : List TradeRecord
  win_rate : ℚ
  avg_win : ℚ
  avg_loss : ℚ
  deriving Repr, DecidableEq

/-- The keys of the Claude-analysis dict that `calculate_position_size`
reads, each `.get` default reproduced at the use site. -/
structure AnalysisInput where
  entry_price : Option ℚ
  stop_loss : Option ℚ
  take_profit : Option ℚ
  confidence : Option ℚ
  risk_reward_ratio : Option ℚ
  time_horizon : Option String
  deriving Repr, DecidableEq

/-- The keys of the market-data dict that the risk manager reads
(`symbol`, `24h_change_percent`, `24h_volume`; Lean identifiers cannot
start with a digit, hence the reordered names). -/
structure MarketInput where
  symbol : Option String
  change_percent_24h : Option ℚ
  volume_24h : Option ℚ
  deriving Repr, DecidableEq

/-- `RiskManager._calculate_portfolio_risk` (lines 290–295). -/
def calculate_portfolio_risk (s : RiskState) : ℚ :=
  (s.current_positions.map Position.risk_amount).sum

/-- `RiskManager._perform_risk_checks` (lines 132–164): the six ordered
checks; result is `(passed, reason)`. -/
def perform_risk_checks (s : RiskState) (analysis : AnalysisInput) : Bool × String :=
  let confidence := analysis.confidence.getD 0
  if confidence < 1/2 then (false, "Низкая уверенность анализа")
  else
    let rr_ratio := analysis.risk_reward_ratio.getD 0
    if rr_ratio < s.min_risk_reward_ratio then (false, "Низкое R/R соотношение")
    else if s.max_positions ≤ s.current_positions.length then
      (false, "Достигнут лимит позиций")
    else
      let daily_loss_percent := |s.daily_pnl| / s.balance
      if s.daily_pnl < 0 ∧ s.max_daily_loss ≤ daily_loss_percent then
        (false, "Достигнут дневной лимит убытков")
      else if s.max_daily_trades ≤ s.daily_trades then
        (false, "Достигнут лимит сделок в день")
      else
        let current_portfolio_risk := calculate_portfolio_risk s
        let max_additional_risk := s.balance * s.max_portfolio_risk - current_portfolio_risk
        if max_additional_risk ≤ 0 then (false, "Достигнут лимит риска портфеля")
        else (true, "Все проверки пройдены")

/-- `RiskManager._calculate_confidence_multiplier` (lines 196–208). -/
def calculate_confidence_multiplier (confidence : ℚ) : ℚ :=
  if confidence < 3/5 then 1/2
  else if confidence < 7/10 then 7/10
  else if confidence < 4/5 then 9/10
  else if confidence < 9/10 then 1
  else 6/5

/-- `RiskManager._calculate_volatility_factor` (lines 210–227); the
`except` branch is unreachable for numeric inputs. -/
def calculate_volatility_factor (market_data : MarketInput) : ℚ :=
  let change_24h := |market_data.change_percent_24h.getD 0|
  if change_24h < 1 then 6/5
  else if change_24h < 3 then 1
  else if change_24h < 5 then 4/5
  else 3/5

/-- Python `'c' in s` for a single character: membership of the character
in the string. -/
def pyCharIn (c : Char) (s : String) : Bool := s.toList.contains c

/-- `RiskManager._calculate_time_multiplier` (lines 229–242): substring
checks (each on a single digit) on the holding-horizon descriptor. -/
def calculate_time_multiplier (time_horizon : String) : ℚ :=
  if pyCharIn '1' time_horizon then 4/5
  else if pyCharIn '2' time_horizon ∨ pyCharIn '3' time_horizon then 1
  else if pyCharIn '4' time_horizon ∨ pyCharIn '6' time_horizon then 11/10
  else 1

/-- `RiskManager._calculate_volume_factor` (lines 244–260). -/
def calculate_volume_factor (market_data : MarketInput) : ℚ :=
  let volume_24h := market_data.volume_24h.getD 0
  if 2000000000 < volume_24h then 1
  else if 1000000000 < volume_24h then 9/10
  else if 500000000 < volume_24h then 4/5
  else 7/10

/-- `RiskManager._adjust_position_size` (lines 166–194): the four
multiplicative adjustments. -/
def adjust_position_size (s : RiskState) (base_size confidence : ℚ)
    (analysis : AnalysisInput) (market_data : MarketInput) : ℚ :=
  let a1 := base_size * calculate_confidence_multiplier confidence
  let a2 := if s.volatility_adjustment then a1 * calculate_volatility_factor market_data else a1
  let time_horizon := analysis.time_horizon.getD "2-4 часа"
  let a3 := a2 * calculate_time_multiplier time_horizon
  a3 * calculate_volume_factor market_data

/-- `RiskManager._get_average_stop_distance` (lines 286–288): returns
2% of the entry price (a stop DISTANCE, per its own docstring). -/
def get_average_stop_distance (entry_price : ℚ) : ℚ :=
  entry_price * (2/100)

/-- `RiskManager._apply_position_limits` (lines 262–284).  Note that the
portfolio-risk cap divides the available risk by
`|entry_price - get_average_stop_distance entry_price|`, i.e. by 98% of the
entry price, exactly as the source does. -/
def apply_position_limits (s : RiskState) (size entry_price : ℚ) : ℚ :=
  let min_position_value : ℚ := 100
  let min_size := min_position_value / entry_price
  if size < min_size then 0
  else
    let max_position_percent : ℚ := 25/100
    let max_position_value := s.balance * max_position_percent
    let max_size := max_position_value / entry_price
    let current_risk := calculate_portfolio_risk s
    let available_risk := s.balance * s.max_portfolio_risk - current_risk
    let max_risk_size :=
      if 0 < available_risk then
        available_risk / |entry_price - get_average_stop_distance entry_price|
      else 0
    let final_size :=
      if 0 < max_risk_size then min size (min max_size max_risk_size)
      else min size max_size
    max 0 final_size

/-- `RiskManager._update_trade_statistics` (lines 329–339). -/
def update_trade_statistics (s : RiskState) : RiskState :=
  if s.trade_history = [] then s
  else
    let wins := (s.trade_history.filter (fun t => 0 < t.pnl)).map TradeRecord.pnl
    let losses := (s.trade_history.filter (fun t => t.pnl < 0)).map TradeRecord.pnl
    { s with
      win_rate := (wins.length : ℚ) / (s.trade_history.length : ℚ),
      avg_win := if wins = [] then 0 else wins.sum / (wins.length : ℚ),
      avg_loss := if losses = [] then 0 else losses.sum / (losses.length : ℚ) }

/-- `RiskManager._calculate_kelly_fraction` (lines 297–327); returns the
fraction together with the state whose statistics it refreshed.  The
`except` fallback (0.25) is unreachable in exact arithmetic: whenever
`win_rate ≠ 0` the wins are nonempty and `b > 0`. -/
def calculate_kelly_fraction (s : RiskState) (analysis : AnalysisInput) : ℚ × RiskState :=
  if s.trade_history.length < 10 then (1/2, s)
  else
    let s2 := update_trade_statistics s
    if s2.avg_loss = 0 ∨ s2.win_rate = 0 then (1/4, s2)
    else
      let b := s2.avg_win / |s2.avg_loss|
      let p := s2.win_rate
      let q := 1 - p
      let kelly_fraction := (b * p - q) / b
      (max (1/10) (min (1/2) kelly_fraction), s2)

/-- The dict returned by `calculate_position_size`; the early-rejection
returns carry only four of the keys, hence the `Option` fields. -/
structure PositionSizeResult where
  position_size : ℚ
  risk_amount : ℚ
  potential_profit : Option ℚ
  risk_reward_ratio : Option ℚ
  confidence_adjusted : Option ℚ
  volatility_adjusted : Option ℚ
  kelly_fraction : Option ℚ
  allowed : Bool
  reason : String
  deriving Repr, DecidableEq

/-- `RiskManager.calculate_position_size` (lines 56–130), with the state it
leaves behind. -/
def calculate_position_size (s : RiskState) (analysis : AnalysisInput)
    (market_data : MarketInput) : PositionSizeResult × RiskState :=
  let entry_price := analysis.entry_price.getD 0
  let stop_loss := analysis.stop_loss.getD 0
  let take_profit := analysis.take_profit.getD 0
  let confidence := analysis.confidence.getD 0
  let risk_checks := perform_risk_checks s analysis
  if risk_checks.1 = false then
    ({ position_size := 0, risk_amount := 0, potential_profit := none,
       risk_reward_ratio := none, confidence_adjusted := none,
       volatility_adjusted := none, kelly_fraction := none,
       allowed := false, reason := risk_checks.2 }, s)
  else
    let risk_per_unit := |entry_price - stop_loss|
    if risk_per_unit ≤ 0 then
      ({ position_size := 0, risk_amount := 0, potential_profit := none,
         risk_reward_ratio := none, confidence_adjusted := none,
         volatility_adjusted := none, kelly_fraction := none,
         allowed := false, reason := "Невозможно определить риск на единицу" }, s)
    else
      let base_risk_amount := s.balance * s.max_risk_per_trade
      let base_position_size := base_risk_amount / risk_per_unit
      let adjusted_size := adjust_position_size s base_position_size confidence analysis market_data
      let final_size := apply_position_limits s adjusted_size entry_price
      let final_risk_amount := final_size * risk_per_unit
      let potential_profit := |take_profit - entry_price| * final_size
      let risk_reward_ratio :=
        if 0 < final_risk_amount then potential_profit / final_risk_amount else 0
      let kelly := calculate_kelly_fraction s analysis
      ({ position_size := final_size,
         risk_amount := final_risk_amount,
         potential_profit := some potential_profit,
         risk_reward_ratio := some risk_reward_ratio,
         confidence_adjusted := some confidence,
         volatility_adjusted := some (calculate_volatility_factor market_data),
         kelly_fraction := some kelly.1,
         allowed := decide (0 < final_size),
         reason := if 0 < final_size then "Позиция рассчитана успешно"
                   else "Размер позиции слишком мал" }, kelly.2)

/-- The first position matching a symbol, and the list with it removed
(the `for i, position in enumerate(...)` / `pop(i)` loop). -/
def extractFirst (symbol : String) : List Position → Option (Position × List Position)
  | [] => none
  | p :: rest =>
      if p.symbol = symbol then some (p, rest)
      else
        match extractFirst symbol rest with
        | none => none
        | some (q, rest2) => some (q, p :: rest2)

/-- `RiskManager.close_position` (lines 369–403). -/
def close_position (s : RiskState) (symbol : String) (close_price : ℚ)
    (now : ℕ) : Option TradeRecord × RiskState :=
  match extractFirst symbol s.current_positions with
  | none => (none, s)
  | some (position, remaining) =>
      let pnl :=
        if position.side = "long" then (close_price - position.entry_price) * position.size
        else (position.entry_price - close_price) * position.size
      let trade_record : TradeRecord :=
        { symbol := position.symbol, side := position.side,
          entry_price := position.entry_price, close_price := close_price,
          size := position.size, pnl := pnl, timestamp := now,
          confidence := position.confidence }
      (some trade_record,
       { s with daily_pnl := s.daily_pnl + pnl,
                trade_history := s.trade_history ++ [trade_record],
                current_positions := remaining })

/-! ### Claims about the risk manager -/

theorem extractFirst_eq_none (symbol : String) (l : List Position)
    (h : ∀ p ∈ l, p.symbol ≠ symbol) : extractFirst symbol l = none := by
  induction l with
  | nil => rfl
  | cons p rest ih =>
    unfold extractFirst
    rw [if_neg (h p (List.mem_cons_self p rest))]
    rw [ih (fun q hq => h q (List.mem_cons_of_mem p hq))]

/-- C9: closing a symbol with no matching open position returns `none` and
leaves the whole portfolio state unchanged. -/
theorem C9_close_position_no_match (s : RiskState) (symbol : String)
    (close_price : ℚ) (now : ℕ)
    (h : ∀ p ∈ s.current_positions, p.symbol ≠ symbol) :
    close_position s symbol close_price now = (none, s) := by
  unfold close_position
  rw [extractFirst_eq_none symbol s.current_positions h]

/-- A concrete open BTCUSDT position. -/
def w9_position : Position :=
  { symbol := "BTCUSDT", side := "long", size := 1/10,
    entry_price := 50000, stop_loss := 49000, take_profit := 52500,
    timestamp := 0, confidence := 4/5, risk_amount := 100,
    expected_return := 250 }

/-- A concrete portfolio state holding one open BTCUSDT position. -/
def w9_state : RiskState :=
  { balance := 10000, max_risk_per_trade := 2/100, max_portfolio_risk := 6/100,
    max_daily_loss := 5/100, min_risk_reward_ratio := 2, max_positions := 3,
    volatility_adjustment := true,
    current_positions := [w9_position],
    daily_pnl := 3, daily_trades := 1, max_daily_trades := 10,
    trade_history := [], win_rate := 0, avg_win := 0, avg_loss := 0 }

/-- C9 witness: closing `ETHUSDT` against `w9_state` (which only holds a
`BTCUSDT` position) returns `none` and the untouched state. -/
theorem C9_witness : close_position w9_state "ETHUSDT" 4000 7 = (none, w9_state) :=
  C9_close_position_no_match w9_state "ETHUSDT" 4000 7 (by
    intro p hp
    simp only [w9_state, List.mem_singleton] at hp
    subst hp
    decide)

/-- C10: sizing a position never touches the open-position list, the daily
P&L and trade counters, the trade history or the balance; only the derived
win/loss statistics may be refreshed by the Kelly computation. -/
theorem update_trade_statistics_frame (s : RiskState) :
    (update_trade_statistics s).current_positions = s.current_positions ∧
    (update_trade_statistics s).daily_pnl = s.daily_pnl ∧
    (update_trade_statistics s).daily_trades = s.daily_trades ∧
    (update_trade_statistics s).trade_history = s.trade_history ∧
    (update_trade_statistics s).balance = s.balance := by
  unfold update_trade_statistics
  split_ifs <;> simp

theorem calculate_kelly_fraction_snd (s : RiskState) (a : AnalysisInput) :
    (calculate_kelly_fraction s a).2 = s ∨
    (calculate_kelly_fraction s a).2 = update_trade_statistics s := by
  simp only [calculate_kelly_fraction]
  split
  · exact Or.inl rfl
  · split
    · exact Or.inr rfl
    · exact Or.inr rfl

theorem calculate_position_size_snd (s : RiskState) (a : AnalysisInput)
    (m : MarketInput) :
    (calculate_position_size s a m).2 = s ∨
    (calculate_position_size s a m).2 = update_trade_statistics s := by
  simp only [calculate_position_size]
  split
  · exact Or.inl rfl
  · split
    · exact Or.inl rfl
    · exact calculate_kelly_fraction_snd s a

theorem C10_calculate_position_size_frame (s : RiskState) (a : AnalysisInput)
    (m : MarketInput) :
    ((calculate_position_size s a m).2.current_positions = s.current_positions) ∧
    ((calculate_position_size s a m).2.daily_pnl = s.daily_pnl) ∧
    ((calculate_position_size s a m).2.daily_trades = s.daily_trades) ∧
    ((calculate_position_size s a m).2.trade_history = s.trade_history) ∧
    ((calculate_position_size s a m).2.balance = s.balance) := by
  rcases calculate_position_size_snd s a m with h | h
  · rw [h]
    exact ⟨rfl, rfl, rfl, rfl, rfl⟩
  · rw [h]
    exact update_trade_statistics_frame s

/-- The exact scenario of the C1 claim: fresh state with balance 10000. -/
def c1_state : RiskState :=
  { balance := 10000, max_risk_per_trade := 2/100, max_portfolio_risk := 6/100,
    max_daily_loss := 5/100, min_risk_reward_ratio := 2, max_positions := 3,
    volatility_adjustment := true, current_positions := [], daily_pnl := 0,
    daily_trades := 0, max_daily_trades := 10, trade_history := [],
    win_rate := 0, avg_win := 0, avg_loss := 0 }

/-- C1 scenario analysis: entry 50000, stop 49000, confidence 0.85, with a
risk/reward ratio that passes the checks. -/
def c1_analysis : AnalysisInput :=
  { entry_price := some 50000, stop_loss := some 49000, take_profit := some 52500,
    confidence := some (85/100), risk_reward_ratio := some (5/2),
    time_horizon := none }

/-- C1 scenario market data: 24h change 2%, 24h volume 3e9. -/
def c1_market : MarketInput :=
  { symbol := some "BTCUSDT", change_percent_24h := some 2,
    volume_24h := some 3000000000 }

/-- C1 counterexample: on the claimed scenario the code answers
`position_size = 3/245 ≈ 0.0122` and `risk_amount = 600/49 ≈ 12.24`,
nowhere near the claimed `≈ 0.2` and `≈ 200` (the position limits cap the
adjusted size). -/
theorem C1_counterexample :
    (calculate_position_size c1_state c1_analysis c1_market).1.allowed = true ∧
    (calculate_position_size c1_state c1_analysis c1_market).1.position_size = 3/245 ∧
    (calculate_position_size c1_state c1_analysis c1_market).1.risk_amount = 600/49 ∧
    |(calculate_position_size c1_state c1_analysis c1_market).1.position_size - 2/10| > 15/100 ∧
    |(calculate_position_size c1_state c1_analysis c1_market).1.risk_amount - 200| > 150 := by
  have h1 : pyCharIn '1' "2-4 часа" = false := by decide
  have h2 : pyCharIn '2' "2-4 часа" = true := by decide
  norm_num [calculate_position_size, perform_risk_checks, calculate_portfolio_risk,
    adjust_position_size, calculate_confidence_multiplier, calculate_volatility_factor,
    calculate_time_multiplier, calculate_volume_factor, apply_position_limits,
    get_average_stop_distance, calculate_kelly_fraction, update_trade_statistics,
    c1_state, c1_analysis, c1_market, h1, h2]
  rw [abs_of_pos (by norm_num : (0:ℚ) < 46/245), abs_of_pos (by norm_num : (0:ℚ) < 9200/49)]
  norm_num

/-- C1 (amended): on the scenario the base size is indeed 0.2 and all four
adjustment multipliers are 1.0, but the position limits then apply: the 25%
balance cap gives 0.05 and the portfolio-risk cap gives 600/49000 = 3/245,
so the returned size is 3/245 with risk 600/49, still `allowed = true`. -/
theorem C1_amended :
    c1_state.balance * c1_state.max_risk_per_trade / |(50000 : ℚ) - 49000| = 2/10 ∧
    calculate_confidence_multiplier (85/100) = 1 ∧
    calculate_volatility_factor c1_market = 1 ∧
    calculate_time_multiplier "2-4 часа" = 1 ∧
    calculate_volume_factor c1_market = 1 ∧
    adjust_position_size c1_state (2/10) (85/100) c1_analysis c1_market = 2/10 ∧
    apply_position_limits c1_state (2/10) 50000 = 3/245 ∧
    (calculate_position_size c1_state c1_analysis c1_market).1.position_size = 3/245 ∧
    (calculate_position_size c1_state c1_analysis c1_market).1.risk_amount = 600/49 ∧
    (calculate_position_size c1_state c1_analysis c1_market).1.allowed = true := by
  have h1 : pyCharIn '1' "2-4 часа" = false := by decide
  have h2 : pyCharIn '2' "2-4 часа" = true := by decide
  norm_num [calculate_position_size, perform_risk_checks, calculate_portfolio_risk,
    adjust_position_size, calculate_confidence_multiplier, calculate_volatility_factor,
    calculate_time_multiplier, calculate_volume_factor, apply_position_limits,
    get_average_stop_distance, calculate_kelly_fraction, update_trade_statistics,
    c1_state, c1_analysis, c1_market, h1, h2]

/-- C2: the code divides the portfolio-risk headroom (600) not by the 2%
stop distance (1000, as the claim and `_get_average_stop_distance`'s own
docstring intend) but by `|entry - distance|` = 49000, treating the
returned distance as a stop price: the cap comes out as 3/245 instead of
3/5, and the final size is not the claimed minimum. -/
theorem C2_portfolio_cap_uses_stale_price :
    get_average_stop_distance 50000 = 1000 ∧
    (c1_state.balance * c1_state.max_portfolio_risk - calculate_portfolio_risk c1_state)
      / get_average_stop_distance 50000 = 3/5 ∧
    (c1_state.balance * c1_state.max_portfolio_risk - calculate_portfolio_risk c1_state)
      / |(50000 : ℚ) - get_average_stop_distance 50000| = 3/245 ∧
    apply_position_limits c1_state (2/10) 50000 = 3/245 ∧
    apply_position_limits c1_state (2/10) 50000 ≠ min (2/10) (min (1/20) (3/5)) := by
  norm_num [apply_position_limits, get_average_stop_distance, calculate_portfolio_risk,
    c1_state]

/-! ## Analysis validator (`tools/analysis_validator/tool.py`)

`validate_enhanced_analysis` is a straight-line sequence of corrections; it
is embedded as a composition of one definition per source block.  The local
Python variable `entry_price` is read once (line 38) and never reassigned,
so the later blocks keep using the value read BEFORE the 5%-deviation
correction overwrites the stored entry price; the embedding threads that
stale local explicitly. -/

/-- The `entry_strategy` sub-dictionary. -/
structure EntryStrategy where
  entry_price : Option ℚ
  entry_condition : Option String
  position_size_percent : Option ℚ
  deriving Repr, DecidableEq

/-- The `risk_management` sub-dictionary. -/
structure RiskBlock where
  stop_loss : Option ℚ
  take_profit_1 : Option ℚ
  take_profit_2 : Option ℚ
  risk_reward_ratio : Option ℚ
  max_loss_percent : Option ℚ
  deriving Repr, DecidableEq

/-- The analysis dictionary handled by the validator (keys of the
recommendation schema plus the stamped metadata). -/
structure AnalysisDict where
  market_sentiment : Option String
  confidence_score : Option ℚ
  recommended_action : Option String
  entry_strategy : Option EntryStrategy
  risk_management : Option RiskBlock
  reasoning : Option String
  timestamp : Option String
  analyzer : Option String
  symbol : Option String
  deriving Repr, DecidableEq

/-- The keys the validator reads from the market-data dictionary. -/
structure MarketDict where
  current_price : Option ℚ
  symbol : Option String
  deriving Repr, DecidableEq

/-- The empty `entry_strategy` dictionary (`{}`). -/
def emptyEs : EntryStrategy := ⟨none, none, none⟩

/-- The empty `risk_management` dictionary (`{}`). -/
def emptyRm : RiskBlock := ⟨none, none, none, none, none⟩

/-- Default `entry_strategy` from `get_enhanced_default_value`. -/
def default_entry_strategy (current_price : ℚ) : EntryStrategy :=
  { entry_price := some current_price, entry_condition := some "market order",
    position_size_percent := some 2 }

/-- Default `risk_management` from `get_enhanced_default_value`. -/
def default_risk_management (current_price : ℚ) : RiskBlock :=
  { stop_loss := some (current_price * (98/100)),
    take_profit_1 := some (current_price * (104/100)),
    take_profit_2 := some (current_price * (108/100)),
    risk_reward_ratio := some 2,
    max_loss_percent := some 2 }

/-- The default reasoning string from `get_enhanced_default_value`. -/
def default_reasoning : String :=
  "Analysis performed with default parameters due to incomplete data"

/-- Source lines 18–27: fill each missing required field with its default. -/
def fill_required (analysis : AnalysisDict) (current_price : ℚ) : AnalysisDict :=
  { analysis with
    market_sentiment := some (analysis.market_sentiment.getD "neutral"),
    confidence_score := some (analysis.confidence_score.getD (3/10)),
    recommended_action := some (analysis.recommended_action.getD "wait"),
    entry_strategy := some (analysis.entry_strategy.getD (default_entry_strategy current_price)),
    risk_management := some (analysis.risk_management.getD (default_risk_management current_price)),
    reasoning := some (analysis.reasoning.getD default_reasoning) }

/-- Source lines 29–31: clamp an out-of-range confidence score to [0, 1]. -/
def clamp_confidence (a : AnalysisDict) : AnalysisDict :=
  let cs0 := a.confidence_score.getD 0
  if ¬ (0 ≤ cs0 ∧ cs0 ≤ 1) then
    { a with confidence_score := some (max 0 (min 1 (a.confidence_score.getD (1/2)))) }
  else a

/-- Source lines 34–36: install `current_price` as entry price if missing. -/
def fill_entry_price (a : AnalysisDict) (current_price : ℚ) : AnalysisDict :=
  let es0 := a.entry_strategy.getD emptyEs
  if es0.entry_price = none then
    { a with entry_strategy := some { es0 with entry_price := some current_price } }
  else a

/-- Source line 38: the local `entry_price` variable, read once after the
fill and never reassigned. -/
def local_entry_price (a : AnalysisDict) (current_price : ℚ) : ℚ :=
  (a.entry_strategy.getD emptyEs).entry_price.getD current_price

/-- Source lines 39–40: if the entry price deviates more than 5% from the
current price, overwrite the STORED entry price (the local keeps the old
value). -/
def clamp_entry_price (a : AnalysisDict) (entry_price current_price : ℚ) : AnalysisDict :=
  let es1 := a.entry_strategy.getD emptyEs
  if current_price * (5/100) < |entry_price - current_price| then
    { a with entry_strategy := some { es1 with entry_price := some current_price } }
  else a

/-- Source lines 43–45: install a default stop loss (98% of current) if
missing. -/
def fill_stop_loss (a : AnalysisDict) (current_price : ℚ) : AnalysisDict :=
  let rm0 := a.risk_management.getD emptyRm
  if rm0.stop_loss = none then
    { a with risk_management := some { rm0 with stop_loss := some (current_price * (98/100)) } }
  else a

/-- Source lines 47–54: clamp the stop loss to at most 3% of the current
price away from the (stale local) entry price, below for `long`, above
otherwise. -/
def clamp_stop_loss (a : AnalysisDict) (entry_price current_price : ℚ) : AnalysisDict :=
  let rm1 := a.risk_management.getD emptyRm
  let stop_loss := rm1.stop_loss.getD 0
  let max_stop_distance := current_price * (3/100)
  if max_stop_distance < |entry_price - stop_loss| then
    if a.recommended_action = some "long" then
      { a with risk_management := some { rm1 with stop_loss := some (entry_price - max_stop_distance) } }
    else
      { a with risk_management := some { rm1 with stop_loss := some (entry_price + max_stop_distance) } }
  else a

/-- Source lines 56–69: enforce a minimum 1:2 risk/reward on the take
profits, relative to the stale local entry price. -/
def enforce_take_profits (a : AnalysisDict) (entry_price : ℚ) : AnalysisDict :=
  let rm2 := a.risk_management.getD emptyRm
  let risk := |entry_price - rm2.stop_loss.getD 0|
  let min_reward := risk * 2
  if a.recommended_action = some "long" then
    let min_tp1 := entry_price + min_reward
    if rm2.take_profit_1.getD 0 < min_tp1 then
      let rm3 := { rm2 with take_profit_1 := some min_tp1, take_profit_2 := some (min_tp1 * (3/2)) }
      { a with risk_management := some rm3 }
    else a
  else
    let min_tp1 := entry_price - min_reward
    if min_tp1 < rm2.take_profit_1.getD 0 then
      let rm3 := { rm2 with take_profit_1 := some min_tp1, take_profit_2 := some (min_tp1 / (3/2)) }
      { a with risk_management := some rm3 }
    else a

/-- Source lines 71–73: recompute and overwrite the risk/reward ratio. -/
def recompute_rr (a : AnalysisDict) (entry_price : ℚ) : AnalysisDict :=
  let rm3 := a.risk_management.getD emptyRm
  let risk := |entry_price - rm3.stop_loss.getD 0|
  let reward := |rm3.take_profit_1.getD entry_price - entry_price|
  let rm4 := { rm3 with risk_reward_ratio := some (if 0 < risk then reward / risk else 2) }
  { a with risk_management := some rm4 }

/-- Source lines 75–78: stamp timestamp, analyzer tag and symbol. -/
def stamp_metadata (a : AnalysisDict) (market_data : MarketDict) (now : String) : AnalysisDict :=
  { a with timestamp := some now,
           analyzer := some "claude_enhanced",
           symbol := some (market_data.symbol.getD "UNKNOWN") }

/-- `AnalysisValidatorTool.validate_enhanced_analysis` (tool.py lines
13–80), for field values of the expected types. -/
def validate_enhanced_analysis (analysis : AnalysisDict) (market_data : MarketDict)
    (now : String) : AnalysisDict :=
  let current_price := market_data.current_price.getD 50000
  let a1 := fill_required analysis current_price
  let a2 := clamp_confidence a1
  let a3 := fill_entry_price a2 current_price
  let entry_price := local_entry_price a3 current_price
  let a4 := clamp_entry_price a3 entry_price current_price
  let a5 := fill_stop_loss a4 current_price
  let a6 := clamp_stop_loss a5 entry_price current_price
  let a7 := enforce_take_profits a6 entry_price
  let a8 := recompute_rr a7 entry_price
  stamp_metadata a8 market_data now

/-- The entry price stored in a (sanitized) analysis dictionary. -/
def sanitized_entry (a : AnalysisDict) : ℚ :=
  (a.entry_strategy.getD emptyEs).entry_price.getD 0

/-- The stop loss stored in a (sanitized) analysis dictionary. -/
def sanitized_stop (a : AnalysisDict) : ℚ :=
  (a.risk_management.getD emptyRm).stop_loss.getD 0

/-- The first take profit stored in a (sanitized) analysis dictionary. -/
def sanitized_tp1 (a : AnalysisDict) : Option ℚ :=
  (a.risk_management.getD emptyRm).take_profit_1

/-- The risk/reward ratio stored in a (sanitized) analysis dictionary. -/
def sanitized_rr (a : AnalysisDict) : ℚ :=
  (a.risk_management.getD emptyRm).risk_reward_ratio.getD 0

/-- The entry price the validator's local variable will hold: the incoming
entry price after the missing-field fills, BEFORE the 5% correction. -/
def entry_price_used (analysis : AnalysisDict) (current_price : ℚ) : ℚ :=
  ((analysis.entry_strategy.getD (default_entry_strategy current_price)).entry_price).getD current_price

/-- Overwrite the stored entry price. -/
def setEntry (a : AnalysisDict) (v : ℚ) : AnalysisDict :=
  { a with entry_strategy := some { a.entry_strategy.getD emptyEs with entry_price := some v } }

/-- Overwrite the stored confidence score. -/
def setCs (a : AnalysisDict) (v : ℚ) : AnalysisDict :=
  { a with confidence_score := some v }

/-- Overwrite the stored stop loss. -/
def setStop (a : AnalysisDict) (v : ℚ) : AnalysisDict :=
  { a with risk_management := some { a.risk_management.getD emptyRm with stop_loss := some v } }

/-- Overwrite the stored take profits. -/
def setTp (a : AnalysisDict) (t1 t2 : ℚ) : AnalysisDict :=
  { a with risk_management := some { a.risk_management.getD emptyRm with take_profit_1 := some t1, take_profit_2 := some t2 } }

/-- Overwrite the stored risk/reward ratio. -/
def setRr (a : AnalysisDict) (v : ℚ) : AnalysisDict :=
  { a with risk_management := some { a.risk_management.getD emptyRm with risk_reward_ratio := some v } }

/-- The ratio `recompute_rr` stores (source lines 71–73). -/
def rr_formula (a : AnalysisDict) (e : ℚ) : ℚ :=
  if 0 < |e - sanitized_stop a| then |(sanitized_tp1 a).getD e - e| / |e - sanitized_stop a| else 2

/-! ### Unfolded forms of the validator phases -/

theorem clamp_confidence_eq (a : AnalysisDict) :
    clamp_confidence a =
      if ¬ (0 ≤ a.confidence_score.getD 0 ∧ a.confidence_score.getD 0 ≤ 1) then
        setCs a (max 0 (min 1 (a.confidence_score.getD (1/2))))
      else a := rfl

theorem fill_entry_price_eq (a : AnalysisDict) (c : ℚ) :
    fill_entry_price a c =
      if (a.entry_strategy.getD emptyEs).entry_price = none then setEntry a c else a := rfl

theorem clamp_entry_price_eq (a : AnalysisDict) (e c : ℚ) :
    clamp_entry_price a e c =
      if c * (5/100) < |e - c| then setEntry a c else a := rfl

theorem fill_stop_loss_eq (a : AnalysisDict) (c : ℚ) :
    fill_stop_loss a c =
      if (a.risk_management.getD emptyRm).stop_loss = none then
        setStop a (c * (98/100))
      else a := rfl

theorem clamp_stop_loss_eq (a : AnalysisDict) (e c : ℚ) :
    clamp_stop_loss a e c =
      if c * (3/100) < |e - sanitized_stop a| then
        if a.recommended_action = some "long" then setStop a (e - c * (3/100))
        else setStop a (e + c * (3/100))
      else a := rfl

theorem enforce_take_profits_eq (a : AnalysisDict) (e : ℚ) :
    enforce_take_profits a e =
      if a.recommended_action = some "long" then
        if (sanitized_tp1 a).getD 0 < e + |e - sanitized_stop a| * 2 then
          setTp a (e + |e - sanitized_stop a| * 2) ((e + |e - sanitized_stop a| * 2) * (3/2))
        else a
      else
        if e - |e - sanitized_stop a| * 2 < (sanitized_tp1 a).getD 0 then
          setTp a (e - |e - sanitized_stop a| * 2) ((e - |e - sanitized_stop a| * 2) / (3/2))
        else a := rfl

theorem recompute_rr_eq (a : AnalysisDict) (e : ℚ) :
    recompute_rr a e = setRr a (rr_formula a e) := rfl

/-! ### Field-preservation lemmas for the validator phases -/

@[simp] theorem clamp_confidence_action (a : AnalysisDict) :
    (clamp_confidence a).recommended_action = a.recommended_action := by
  simp only [clamp_confidence]; split <;> rfl

@[simp] theorem clamp_confidence_entry (a : AnalysisDict) :
    (clamp_confidence a).entry_strategy = a.entry_strategy := by
  simp only [clamp_confidence]; split <;> rfl

@[simp] theorem clamp_confidence_rm (a : AnalysisDict) :
    (clamp_confidence a).risk_management = a.risk_management := by
  simp only [clamp_confidence]; split <;> rfl

@[simp] theorem fill_entry_price_action (a : AnalysisDict) (c : ℚ) :
    (fill_entry_price a c).recommended_action = a.recommended_action := by
  simp only [fill_entry_price]; split <;> rfl

@[simp] theorem fill_entry_price_rm (a : AnalysisDict) (c : ℚ) :
    (fill_entry_price a c).risk_management = a.risk_management := by
  simp only [fill_entry_price]; split <;> rfl

@[simp] theorem fill_entry_price_cs (a : AnalysisDict) (c : ℚ) :
    (fill_entry_price a c).confidence_score = a.confidence_score := by
  simp only [fill_entry_price]; split <;> rfl

@[simp] theorem clamp_entry_price_action (a : AnalysisDict) (e c : ℚ) :
    (clamp_entry_price a e c).recommended_action = a.recommended_action := by
  simp only [clamp_entry_price]; split <;> rfl

@[simp] theorem clamp_entry_price_rm (a : AnalysisDict) (e c : ℚ) :
    (clamp_entry_price a e c).risk_management = a.risk_management := by
  simp only [clamp_entry_price]; split <;> rfl

@[simp] theorem clamp_entry_price_cs (a : AnalysisDict) (e c : ℚ) :
    (clamp_entry_price a e c).confidence_score = a.confidence_score := by
  simp only [clamp_entry_price]; split <;> rfl

@[simp] theorem fill_stop_loss_action (a : AnalysisDict) (c : ℚ) :
    (fill_stop_loss a c).recommended_action = a.recommended_action := by
  simp only [fill_stop_loss]; split <;> rfl

@[simp] theorem fill_stop_loss_entry (a : AnalysisDict) (c : ℚ) :
    (fill_stop_loss a c).entry_strategy = a.entry_strategy := by
  simp only [fill_stop_loss]; split <;> rfl

@[simp] theorem fill_stop_loss_cs (a : AnalysisDict) (c : ℚ) :
    (fill_stop_loss a c).confidence_score = a.confidence_score := by
  simp only [fill_stop_loss]; split <;> rfl

@[simp] theorem clamp_stop_loss_action (a : AnalysisDict) (e c : ℚ) :
    (clamp_stop_loss a e c).recommended_action = a.recommended_action := by
  simp only [clamp_stop_loss]; split <;> first | rfl | (split <;> rfl)

@[simp] theorem clamp_stop_loss_entry (a : AnalysisDict) (e c : ℚ) :
    (clamp_stop_loss a e c).entry_strategy = a.entry_strategy := by
  simp only [clamp_stop_loss]; split <;> first | rfl | (split <;> rfl)

@[simp] theorem clamp_stop_loss_cs (a : AnalysisDict) (e c : ℚ) :
    (clamp_stop_loss a e c).confidence_score = a.confidence_score := by
  simp only [clamp_stop_loss]; split <;> first | rfl | (split <;> rfl)

@[simp] theorem clamp_stop_loss_tp1 (a : AnalysisDict) (e c : ℚ) :
    sanitized_tp1 (clamp_stop_loss a e c) = sanitized_tp1 a := by
  rw [clamp_stop_loss_eq]
  split
  · split <;> rfl
  · rfl

@[simp] theorem enforce_take_profits_action (a : AnalysisDict) (e : ℚ) :
    (enforce_take_profits a e).recommended_action = a.recommended_action := by
  simp only [enforce_take_profits]; split <;> split <;> rfl

@[simp] theorem enforce_take_profits_entry (a : AnalysisDict) (e : ℚ) :
    (enforce_take_profits a e).entry_strategy = a.entry_strategy := by
  simp only [enforce_take_profits]; split <;> split <;> rfl

@[simp] theorem enforce_take_profits_cs (a : AnalysisDict) (e : ℚ) :
    (enforce_take_profits a e).confidence_score = a.confidence_score := by
  simp only [enforce_take_profits]; split <;> split <;> rfl

@[simp] theorem enforce_take_profits_stop (a : AnalysisDict) (e : ℚ) :
    sanitized_stop (enforce_take_profits a e) = sanitized_stop a := by
  simp only [enforce_take_profits, sanitized_stop]; split <;> split <;> rfl

@[simp] theorem recompute_rr_action (a : AnalysisDict) (e : ℚ) :
    (recompute_rr a e).recommended_action = a.recommended_action := rfl

@[simp] theorem recompute_rr_entry (a : AnalysisDict) (e : ℚ) :
    (recompute_rr a e).entry_strategy = a.entry_strategy := rfl

@[simp] theorem recompute_rr_cs (a : AnalysisDict) (e : ℚ) :
    (recompute_rr a e).confidence_score = a.confidence_score := rfl

@[simp] theorem recompute_rr_stop (a : AnalysisDict) (e : ℚ) :
    sanitized_stop (recompute_rr a e) = sanitized_stop a := rfl

@[simp] theorem recompute_rr_tp1 (a : AnalysisDict) (e : ℚ) :
    sanitized_tp1 (recompute_rr a e) = sanitized_tp1 a := rfl

@[simp] theorem stamp_metadata_action (a : AnalysisDict) (m : MarketDict) (now : String) :
    (stamp_metadata a m now).recommended_action = a.recommended_action := rfl

@[simp] theorem stamp_metadata_entry (a : AnalysisDict) (m : MarketDict) (now : String) :
    (stamp_metadata a m now).entry_strategy = a.entry_strategy := rfl

@[simp] theorem stamp_metadata_rm (a : AnalysisDict) (m : MarketDict) (now : String) :
    (stamp_metadata a m now).risk_management = a.risk_management := rfl

@[simp] theorem stamp_metadata_cs (a : AnalysisDict) (m : MarketDict) (now : String) :
    (stamp_metadata a m now).confidence_score = a.confidence_score := rfl

/-! ### Setter accessor lemmas -/

@[simp] theorem sanitized_entry_setEntry (a : AnalysisDict) (v : ℚ) :
    sanitized_entry (setEntry a v) = v := by simp [sanitized_entry, setEntry]

@[simp] theorem setEntry_rm (a : AnalysisDict) (v : ℚ) :
    (setEntry a v).risk_management = a.risk_management := rfl

@[simp] theorem setEntry_action (a : AnalysisDict) (v : ℚ) :
    (setEntry a v).recommended_action = a.recommended_action := rfl

@[simp] theorem setEntry_cs (a : AnalysisDict) (v : ℚ) :
    (setEntry a v).confidence_score = a.confidence_score := rfl

@[simp] theorem setEntry_entry_price (a : AnalysisDict) (v : ℚ) :
    ((setEntry a v).entry_strategy.getD emptyEs).entry_price = some v := by
  simp [setEntry]

@[simp] theorem setCs_cs (a : AnalysisDict) (v : ℚ) :
    (setCs a v).confidence_score = some v := rfl

@[simp] theorem setCs_entry (a : AnalysisDict) (v : ℚ) :
    (setCs a v).entry_strategy = a.entry_strategy := rfl

@[simp] theorem setCs_rm (a : AnalysisDict) (v : ℚ) :
    (setCs a v).risk_management = a.risk_management := rfl

@[simp] theorem setCs_action (a : AnalysisDict) (v : ℚ) :
    (setCs a v).recommended_action = a.recommended_action := rfl

@[simp] theorem sanitized_stop_setStop (a : AnalysisDict) (v : ℚ) :
    sanitized_stop (setStop a v) = v := by simp [sanitized_stop, setStop]

@[simp] theorem setStop_stop_isSome (a : AnalysisDict) (v : ℚ) :
    ((setStop a v).risk_management.getD emptyRm).stop_loss = some v := by
  simp [setStop]

@[simp] theorem sanitized_tp1_setStop (a : AnalysisDict) (v : ℚ) :
    sanitized_tp1 (setStop a v) = sanitized_tp1 a := by simp [sanitized_tp1, setStop]

@[simp] theorem setStop_entry (a : AnalysisDict) (v : ℚ) :
    (setStop a v).entry_strategy = a.entry_strategy := rfl

@[simp] theorem setStop_action (a : AnalysisDict) (v : ℚ) :
    (setStop a v).recommended_action = a.recommended_action := rfl

@[simp] theorem setStop_cs (a : AnalysisDict) (v : ℚ) :
    (setStop a v).confidence_score = a.confidence_score := rfl

@[simp] theorem sanitized_stop_setTp (a : AnalysisDict) (t1 t2 : ℚ) :
    sanitized_stop (setTp a t1 t2) = sanitized_stop a := by simp [sanitized_stop, setTp]

@[simp] theorem sanitized_tp1_setTp (a : AnalysisDict) (t1 t2 : ℚ) :
    sanitized_tp1 (setTp a t1 t2) = some t1 := by simp [sanitized_tp1, setTp]

@[simp] theorem setTp_entry (a : AnalysisDict) (t1 t2 : ℚ) :
    (setTp a t1 t2).entry_strategy = a.entry_strategy := rfl

@[simp] theorem setTp_action (a : AnalysisDict) (t1 t2 : ℚ) :
    (setTp a t1 t2).recommended_action = a.recommended_action := rfl

@[simp] theorem setTp_cs (a : AnalysisDict) (t1 t2 : ℚ) :
    (setTp a t1 t2).confidence_score = a.confidence_score := rfl

@[simp] theorem sanitized_stop_setRr (a : AnalysisDict) (v : ℚ) :
    sanitized_stop (setRr a v) = sanitized_stop a := by simp [sanitized_stop, setRr]

@[simp] theorem sanitized_tp1_setRr (a : AnalysisDict) (v : ℚ) :
    sanitized_tp1 (setRr a v) = sanitized_tp1 a := by simp [sanitized_tp1, setRr]

@[simp] theorem sanitized_rr_setRr (a : AnalysisDict) (v : ℚ) :
    sanitized_rr (setRr a v) = v := by simp [sanitized_rr, setRr]

@[simp] theorem stamp_metadata_timestamp (a : AnalysisDict) (m : MarketDict) (now : String) :
    (stamp_metadata a m now).timestamp = some now := rfl

@[simp] theorem stamp_metadata_analyzer (a : AnalysisDict) (m : MarketDict) (now : String) :
    (stamp_metadata a m now).analyzer = some "claude_enhanced" := rfl

@[simp] theorem stamp_metadata_symbol (a : AnalysisDict) (m : MarketDict) (now : String) :
    (stamp_metadata a m now).symbol = some (m.symbol.getD "UNKNOWN") := rfl

/-! ### Presence of the required fields -/

/-- All six required fields are present. -/
def Filled (a : AnalysisDict) : Prop :=
  a.market_sentiment ≠ none ∧ a.confidence_score ≠ none ∧ a.recommended_action ≠ none ∧
  a.entry_strategy ≠ none ∧ a.risk_management ≠ none ∧ a.reasoning ≠ none

theorem some_getD_of_ne {α : Type} (x : Option α) (d : α) (h : x ≠ none) :
    some (x.getD d) = x := by
  cases x with
  | none => exact absurd rfl h
  | some v => rfl

/-- Re-filling an already fully-filled analysis changes nothing. -/
theorem fill_required_of_filled (a : AnalysisDict) (c : ℚ) (h : Filled a) :
    fill_required a c = a := by
  obtain ⟨h1, h2, h3, h4, h5, h6⟩ := h
  unfold fill_required
  rw [some_getD_of_ne _ _ h1, some_getD_of_ne _ _ h2, some_getD_of_ne _ _ h3,
      some_getD_of_ne _ _ h4, some_getD_of_ne _ _ h5, some_getD_of_ne _ _ h6]

theorem filled_fill_required (a : AnalysisDict) (c : ℚ) : Filled (fill_required a c) := by
  unfold fill_required Filled
  refine ⟨?_, ?_, ?_, ?_, ?_, ?_⟩ <;> simp

theorem filled_clamp_confidence (a : AnalysisDict) (h : Filled a) :
    Filled (clamp_confidence a) := by
  rw [clamp_confidence_eq]
  split
  · obtain ⟨h1, h2, h3, h4, h5, h6⟩ := h
    exact ⟨h1, by simp, h3, h4, h5, h6⟩
  · exact h

theorem filled_fill_entry_price (a : AnalysisDict) (c : ℚ) (h : Filled a) :
    Filled (fill_entry_price a c) := by
  rw [fill_entry_price_eq]
  split
  · obtain ⟨h1, h2, h3, h4, h5, h6⟩ := h
    exact ⟨h1, h2, h3, by simp [setEntry], h5, h6⟩
  · exact h

theorem filled_clamp_entry_price (a : AnalysisDict) (e c : ℚ) (h : Filled a) :
    Filled (clamp_entry_price a e c) := by
  rw [clamp_entry_price_eq]
  split
  · obtain ⟨h1, h2, h3, h4, h5, h6⟩ := h
    exact ⟨h1, h2, h3, by simp [setEntry], h5, h6⟩
  · exact h

theorem filled_setStop (a : AnalysisDict) (v : ℚ) (h : Filled a) : Filled (setStop a v) := by
  obtain ⟨h1, h2, h3, h4, h5, h6⟩ := h
  exact ⟨h1, h2, h3, h4, by simp [setStop], h6⟩

theorem filled_fill_stop_loss (a : AnalysisDict) (c : ℚ) (h : Filled a) :
    Filled (fill_stop_loss a c) := by
  rw [fill_stop_loss_eq]
  split
  · exact filled_setStop a _ h
  · exact h

theorem filled_clamp_stop_loss (a : AnalysisDict) (e c : ℚ) (h : Filled a) :
    Filled (clamp_stop_loss a e c) := by
  rw [clamp_stop_loss_eq]
  split
  · split
    · exact filled_setStop a _ h
    · exact filled_setStop a _ h
  · exact h

theorem filled_enforce_take_profits (a : AnalysisDict) (e : ℚ) (h : Filled a) :
    Filled (enforce_take_profits a e) := by
  obtain ⟨h1, h2, h3, h4, h5, h6⟩ := h
  rw [enforce_take_profits_eq]
  split
  · split
    · exact ⟨h1, h2, h3, h4, by simp [setTp], h6⟩
    · exact ⟨h1, h2, h3, h4, h5, h6⟩
  · split
    · exact ⟨h1, h2, h3, h4, by simp [setTp], h6⟩
    · exact ⟨h1, h2, h3, h4, h5, h6⟩

theorem filled_recompute_rr (a : AnalysisDict) (e : ℚ) (h : Filled a) :
    Filled (recompute_rr a e) := by
  obtain ⟨h1, h2, h3, h4, h5, h6⟩ := h
  rw [recompute_rr_eq]
  exact ⟨h1, h2, h3, h4, by simp [setRr], h6⟩

theorem filled_stamp_metadata (a : AnalysisDict) (m : MarketDict) (now : String)
    (h : Filled a) : Filled (stamp_metadata a m now) := by
  obtain ⟨h1, h2, h3, h4, h5, h6⟩ := h
  exact ⟨h1, h2, h3, h4, h5, h6⟩

/-- The sanitizer's output always has every required field present. -/
theorem filled_validate (a : AnalysisDict) (m : MarketDict) (now : String) :
    Filled (validate_enhanced_analysis a m now) := by
  unfold validate_enhanced_analysis
  exact filled_stamp_metadata _ _ _ (filled_recompute_rr _ _ (filled_enforce_take_profits _ _
    (filled_clamp_stop_loss _ _ _ (filled_fill_stop_loss _ _ (filled_clamp_entry_price _ _ _
      (filled_fill_entry_price _ _ (filled_clamp_confidence _ (filled_fill_required a _))))))))

/-! ### Fixed-point and postcondition lemmas for the validator phases -/

theorem clamp_confidence_of_inrange (a : AnalysisDict)
    (h : 0 ≤ a.confidence_score.getD 0 ∧ a.confidence_score.getD 0 ≤ 1) :
    clamp_confidence a = a := by
  rw [clamp_confidence_eq, if_neg (not_not_intro h)]

theorem clamp_confidence_inrange (a : AnalysisDict) :
    0 ≤ (clamp_confidence a).confidence_score.getD 0 ∧
    (clamp_confidence a).confidence_score.getD 0 ≤ 1 := by
  rw [clamp_confidence_eq]
  split
  · constructor
    · simp only [setCs_cs, Option.getD_some]
      exact le_max_left 0 _
    · simp only [setCs_cs, Option.getD_some]
      exact max_le (by norm_num) (min_le_left 1 _)
  · next h => exact not_not.mp h

theorem fill_entry_price_of_present (a : AnalysisDict) (c : ℚ)
    (h : (a.entry_strategy.getD emptyEs).entry_price ≠ none) :
    fill_entry_price a c = a := by
  rw [fill_entry_price_eq, if_neg h]

theorem clamp_entry_price_of_close (a : AnalysisDict) (e c : ℚ)
    (h : ¬ (c * (5/100) < |e - c|)) :
    clamp_entry_price a e c = a := by
  rw [clamp_entry_price_eq, if_neg h]

theorem fill_stop_loss_of_present (a : AnalysisDict) (c : ℚ)
    (h : (a.risk_management.getD emptyRm).stop_loss ≠ none) :
    fill_stop_loss a c = a := by
  rw [fill_stop_loss_eq, if_neg h]

theorem clamp_stop_loss_of_close (a : AnalysisDict) (e c : ℚ)
    (h : ¬ (c * (3/100) < |e - sanitized_stop a|)) :
    clamp_stop_loss a e c = a := by
  rw [clamp_stop_loss_eq, if_neg h]

/-- After the stop-loss correction the stop sits within 3% of the current
price from the (stale local) entry price. -/
theorem clamp_stop_loss_bound (a : AnalysisDict) (e c : ℚ) (hc : 0 ≤ c) :
    |e - sanitized_stop (clamp_stop_loss a e c)| ≤ c * (3/100) := by
  have hd : 0 ≤ c * (3/100) := by positivity
  rw [clamp_stop_loss_eq]
  split
  · split
    · rw [sanitized_stop_setStop]
      have : e - (e - c * (3/100)) = c * (3/100) := by ring
      rw [this, abs_of_nonneg hd]
    · rw [sanitized_stop_setStop]
      have : e - (e + c * (3/100)) = -(c * (3/100)) := by ring
      rw [this, abs_neg, abs_of_nonneg hd]
  · next h => exact not_lt.mp h

/-- The stop-loss correction leaves the stop untouched or moves it to
exactly 3% of the current price away from the entry. -/
theorem clamp_stop_loss_stop_isSome (a : AnalysisDict) (e c : ℚ)
    (h : (a.risk_management.getD emptyRm).stop_loss ≠ none) :
    ((clamp_stop_loss a e c).risk_management.getD emptyRm).stop_loss ≠ none := by
  rw [clamp_stop_loss_eq]
  split
  · split <;> simp
  · exact h

theorem fill_stop_loss_stop_isSome (a : AnalysisDict) (c : ℚ) :
    ((fill_stop_loss a c).risk_management.getD emptyRm).stop_loss ≠ none := by
  rw [fill_stop_loss_eq]
  split
  · simp
  · next h => exact h

theorem enforce_of_long_ge (a : AnalysisDict) (e : ℚ)
    (h : a.recommended_action = some "long")
    (h2 : e + |e - sanitized_stop a| * 2 ≤ (sanitized_tp1 a).getD 0) :
    enforce_take_profits a e = a := by
  rw [enforce_take_profits_eq, if_pos h, if_neg (not_lt.mpr h2)]

theorem enforce_of_other_le (a : AnalysisDict) (e : ℚ)
    (h : ¬ a.recommended_action = some "long")
    (h2 : (sanitized_tp1 a).getD 0 ≤ e - |e - sanitized_stop a| * 2) :
    enforce_take_profits a e = a := by
  rw [enforce_take_profits_eq, if_neg h, if_neg (not_lt.mpr h2)]

theorem enforce_tp1_long (a : AnalysisDict) (e : ℚ)
    (h : a.recommended_action = some "long") :
    e + |e - sanitized_stop a| * 2 ≤ (sanitized_tp1 (enforce_take_profits a e)).getD 0 := by
  rw [enforce_take_profits_eq, if_pos h]
  split
  · rw [sanitized_tp1_setTp, Option.getD_some]
  · next h2 => exact not_lt.mp h2

theorem enforce_tp1_other (a : AnalysisDict) (e : ℚ)
    (h : ¬ a.recommended_action = some "long") :
    (sanitized_tp1 (enforce_take_profits a e)).getD 0 ≤ e - |e - sanitized_stop a| * 2 := by
  rw [enforce_take_profits_eq, if_neg h]
  split
  · rw [sanitized_tp1_setTp, Option.getD_some]
  · next h2 => exact not_lt.mp h2

theorem enforce_tp1_isSome (a : AnalysisDict) (e : ℚ) (h : sanitized_tp1 a ≠ none) :
    sanitized_tp1 (enforce_take_profits a e) ≠ none := by
  rw [enforce_take_profits_eq]
  split
  · split
    · simp
    · exact h
  · split
    · simp
    · exact h

/-- `recompute_rr` is the identity on a dictionary that already stores the
recomputed ratio. -/
theorem recompute_rr_fix (a : AnalysisDict) (e : ℚ) (rm : RiskBlock)
    (h1 : a.risk_management = some rm)
    (h2 : rm.risk_reward_ratio = some (rr_formula a e)) :
    recompute_rr a e = a := by
  rw [recompute_rr_eq]
  unfold setRr
  rw [h1]
  simp only [Option.getD_some]
  have hrm : { rm with risk_reward_ratio := some (rr_formula a e) } = rm := by
    cases rm
    simp_all
  rw [hrm]
  cases a
  simp_all

/-- `rr_formula` only reads the stop loss and first take profit. -/
theorem rr_formula_congr (x y : AnalysisDict) (e : ℚ)
    (h1 : sanitized_stop x = sanitized_stop y)
    (h2 : sanitized_tp1 x = sanitized_tp1 y) :
    rr_formula x e = rr_formula y e := by
  unfold rr_formula
  rw [h1, h2]

/-- Stamping an already-stamped dictionary with the same data changes
nothing. -/
theorem stamp_metadata_fix (a : AnalysisDict) (m : MarketDict) (now : String)
    (h1 : a.timestamp = some now)
    (h2 : a.analyzer = some "claude_enhanced")
    (h3 : a.symbol = some (m.symbol.getD "UNKNOWN")) :
    stamp_metadata a m now = a := by
  unfold stamp_metadata
  cases a
  simp_all

/-- The entry price stored after `fill_entry_price` is the value the local
variable reads. -/
theorem fill_entry_price_entry_val (a : AnalysisDict) (c : ℚ) :
    ((fill_entry_price a c).entry_strategy.getD emptyEs).entry_price =
      some ((a.entry_strategy.getD emptyEs).entry_price.getD c) := by
  rw [fill_entry_price_eq]
  split
  · next h => rw [h]; simp
  · next h =>
    cases hv : (a.entry_strategy.getD emptyEs).entry_price with
    | none => exact absurd hv h
    | some v => rfl

/-- The value the validator's local `entry_price` variable holds equals
`entry_price_used` of the original analysis. -/
theorem local_entry_eq_used (a : AnalysisDict) (c : ℚ) :
    local_entry_price (fill_entry_price (clamp_confidence (fill_required a c)) c) c
      = entry_price_used a c := by
  unfold local_entry_price
  rw [fill_entry_price_entry_val, Option.getD_some, clamp_confidence_entry]
  unfold fill_required entry_price_used
  cases ha : a.entry_strategy with
  | none => simp [default_entry_strategy]
  | some es => simp

/-! ### Sanitized-value lemmas across phases -/

@[simp] theorem sanitized_entry_stamp (a : AnalysisDict) (m : MarketDict) (now : String) :
    sanitized_entry (stamp_metadata a m now) = sanitized_entry a := rfl

@[simp] theorem sanitized_entry_recompute (a : AnalysisDict) (e : ℚ) :
    sanitized_entry (recompute_rr a e) = sanitized_entry a := rfl

@[simp] theorem sanitized_entry_enforce (a : AnalysisDict) (e : ℚ) :
    sanitized_entry (enforce_take_profits a e) = sanitized_entry a := by
  unfold sanitized_entry
  rw [enforce_take_profits_entry]

@[simp] theorem sanitized_entry_clamp_stop (a : AnalysisDict) (e c : ℚ) :
    sanitized_entry (clamp_stop_loss a e c) = sanitized_entry a := by
  unfold sanitized_entry
  rw [clamp_stop_loss_entry]

@[simp] theorem sanitized_entry_fill_stop (a : AnalysisDict) (c : ℚ) :
    sanitized_entry (fill_stop_loss a c) = sanitized_entry a := by
  unfold sanitized_entry
  rw [fill_stop_loss_entry]

@[simp] theorem sanitized_stop_stamp (a : AnalysisDict) (m : MarketDict) (now : String) :
    sanitized_stop (stamp_metadata a m now) = sanitized_stop a := rfl

@[simp] theorem sanitized_tp1_stamp (a : AnalysisDict) (m : MarketDict) (now : String) :
    sanitized_tp1 (stamp_metadata a m now) = sanitized_tp1 a := rfl

@[simp] theorem sanitized_rr_stamp (a : AnalysisDict) (m : MarketDict) (now : String) :
    sanitized_rr (stamp_metadata a m now) = sanitized_rr a := rfl

theorem sanitized_rr_recompute (a : AnalysisDict) (e : ℚ) :
    sanitized_rr (recompute_rr a e) = rr_formula a e := by
  rw [recompute_rr_eq, sanitized_rr_setRr]

@[simp] theorem sanitized_tp1_fill_stop (a : AnalysisDict) (c : ℚ) :
    sanitized_tp1 (fill_stop_loss a c) = sanitized_tp1 a := by
  rw [fill_stop_loss_eq]
  split
  · rw [sanitized_tp1_setStop]
  · rfl

theorem sanitized_tp1_fill_required (a : AnalysisDict) (c : ℚ) :
    sanitized_tp1 (fill_required a c) =
      (a.risk_management.getD (default_risk_management c)).take_profit_1 := by
  unfold sanitized_tp1 fill_required
  simp

@[simp] theorem sanitized_tp1_clamp_entry (a : AnalysisDict) (e c : ℚ) :
    sanitized_tp1 (clamp_entry_price a e c) = sanitized_tp1 a := by
  unfold sanitized_tp1
  rw [clamp_entry_price_rm]

@[simp] theorem sanitized_tp1_fill_entry (a : AnalysisDict) (c : ℚ) :
    sanitized_tp1 (fill_entry_price a c) = sanitized_tp1 a := by
  unfold sanitized_tp1
  rw [fill_entry_price_rm]

@[simp] theorem sanitized_tp1_clamp_confidence (a : AnalysisDict) :
    sanitized_tp1 (clamp_confidence a) = sanitized_tp1 a := by
  unfold sanitized_tp1
  rw [clamp_confidence_rm]

theorem sanitized_entry_fill_entry (a : AnalysisDict) (c : ℚ) :
    sanitized_entry (fill_entry_price a c) =
      (a.entry_strategy.getD emptyEs).entry_price.getD c := by
  unfold sanitized_entry
  rw [fill_entry_price_entry_val, Option.getD_some]

theorem local_entry_after_fill (a : AnalysisDict) (c : ℚ) :
    local_entry_price (fill_entry_price a c) c =
      (a.entry_strategy.getD emptyEs).entry_price.getD c := by
  unfold local_entry_price
  rw [fill_entry_price_entry_val, Option.getD_some]

theorem stopOpt_enforce (a : AnalysisDict) (e : ℚ) :
    ((enforce_take_profits a e).risk_management.getD emptyRm).stop_loss =
      (a.risk_management.getD emptyRm).stop_loss := by
  rw [enforce_take_profits_eq]
  split
  · split
    · simp [setTp]
    · rfl
  · split
    · simp [setTp]
    · rfl

theorem stopOpt_recompute (a : AnalysisDict) (e : ℚ) :
    ((recompute_rr a e).risk_management.getD emptyRm).stop_loss =
      (a.risk_management.getD emptyRm).stop_loss := by
  rw [recompute_rr_eq]
  simp [setRr]

theorem rmOpt_recompute (a : AnalysisDict) (e : ℚ) :
    (recompute_rr a e).risk_management =
      some { a.risk_management.getD emptyRm with
             risk_reward_ratio := some (rr_formula a e) } := by
  rw [recompute_rr_eq]
  rfl

@[simp] theorem sanitized_entry_setStop (a : AnalysisDict) (v : ℚ) :
    sanitized_entry (setStop a v) = sanitized_entry a := by
  unfold sanitized_entry
  rw [setStop_entry]

@[simp] theorem sanitized_entry_setTp (a : AnalysisDict) (t1 t2 : ℚ) :
    sanitized_entry (setTp a t1 t2) = sanitized_entry a := by
  unfold sanitized_entry
  rw [setTp_entry]

@[simp] theorem sanitized_entry_setRr (a : AnalysisDict) (v : ℚ) :
    sanitized_entry (setRr a v) = sanitized_entry a := by
  unfold sanitized_entry
  rfl

@[simp] theorem sanitized_stop_setEntry (a : AnalysisDict) (v : ℚ) :
    sanitized_stop (setEntry a v) = sanitized_stop a := by
  unfold sanitized_stop
  rw [setEntry_rm]

@[simp] theorem sanitized_tp1_setEntry (a : AnalysisDict) (v : ℚ) :
    sanitized_tp1 (setEntry a v) = sanitized_tp1 a := by
  unfold sanitized_tp1
  rw [setEntry_rm]

/-! ### Claims C3, C5, C6 about the sanitizer -/

/-- C5 market data: current price 50000. -/
def c5_market : MarketDict := { current_price := some 50000, symbol := some "BTCUSDT" }

/-- C5 input: a long recommendation whose entry price (60000) deviates more
than 5% from the current price (50000) and whose stop (57000) is more than
3% of the current price away from it. -/
def c5_analysis : AnalysisDict :=
  { market_sentiment := some "bullish", confidence_score := some (4/5),
    recommended_action := some "long",
    entry_strategy := some { entry_price := some 60000, entry_condition := none,
                             position_size_percent := none },
    risk_management := some { stop_loss := some 57000, take_profit_1 := some 100000,
                              take_profit_2 := some 120000, risk_reward_ratio := some 2,
                              max_loss_percent := none },
    reasoning := some "r", timestamp := none, analyzer := none, symbol := none }

/-- C5 counterexample: the 5% correction overwrites the stored entry price
with 50000, but the stop-loss correction keeps measuring from the stale
local entry (60000): the output has entry 50000 and stop 58500, which are
8500 apart — far more than 3% of the current price (1500). -/
theorem C5_counterexample :
    sanitized_entry (validate_enhanced_analysis c5_analysis c5_market "t") = 50000 ∧
    sanitized_stop (validate_enhanced_analysis c5_analysis c5_market "t") = 58500 ∧
    (50000 : ℚ) * (3/100) <
      |sanitized_entry (validate_enhanced_analysis c5_analysis c5_market "t") -
       sanitized_stop (validate_enhanced_analysis c5_analysis c5_market "t")| := by
  have hcp : c5_market.current_price.getD 50000 = 50000 := rfl
  have hfill : fill_required c5_analysis 50000 = c5_analysis :=
    fill_required_of_filled _ _ (by simp [Filled, c5_analysis])
  have hcc : clamp_confidence c5_analysis = c5_analysis :=
    clamp_confidence_of_inrange _ (by norm_num [c5_analysis])
  have hfe : fill_entry_price c5_analysis 50000 = c5_analysis :=
    fill_entry_price_of_present _ _ (by simp [c5_analysis, emptyEs])
  have hloc : local_entry_price c5_analysis 50000 = 60000 := by
    simp [local_entry_price, c5_analysis, emptyEs]
  have habs1 : |(60000:ℚ) - 50000| = 10000 := by
    rw [show (60000:ℚ) - 50000 = 10000 by norm_num]
    exact abs_of_nonneg (by norm_num)
  have hce : clamp_entry_price c5_analysis 60000 50000 = setEntry c5_analysis 50000 := by
    rw [clamp_entry_price_eq, if_pos (by rw [habs1]; norm_num)]
  have hfs : fill_stop_loss (setEntry c5_analysis 50000) 50000 = setEntry c5_analysis 50000 :=
    fill_stop_loss_of_present _ _ (by simp [c5_analysis, setEntry, emptyRm])
  have hstopB : sanitized_stop (setEntry c5_analysis 50000) = 57000 := by
    simp [sanitized_stop, setEntry, c5_analysis, emptyRm]
  have habs2 : |(60000:ℚ) - 57000| = 3000 := by
    rw [show (60000:ℚ) - 57000 = 3000 by norm_num]
    exact abs_of_nonneg (by norm_num)
  have hlong : (setEntry c5_analysis 50000).recommended_action = some "long" := rfl
  have hcs : clamp_stop_loss (setEntry c5_analysis 50000) 60000 50000 =
      setStop (setEntry c5_analysis 50000) 58500 := by
    rw [clamp_stop_loss_eq, hstopB, if_pos (by rw [habs2]; norm_num), if_pos hlong]
    norm_num
  have hstopD : sanitized_stop (setStop (setEntry c5_analysis 50000) 58500) = 58500 :=
    sanitized_stop_setStop _ _
  have htpD : sanitized_tp1 (setStop (setEntry c5_analysis 50000) 58500) = some 100000 := by
    simp [sanitized_tp1, setStop, setEntry, c5_analysis, emptyRm]
  have habs3 : |(60000:ℚ) - 58500| = 1500 := by
    rw [show (60000:ℚ) - 58500 = 1500 by norm_num]
    exact abs_of_nonneg (by norm_num)
  have hactD : (setStop (setEntry c5_analysis 50000) 58500).recommended_action = some "long" := rfl
  have hen : enforce_take_profits (setStop (setEntry c5_analysis 50000) 58500) 60000 =
      setStop (setEntry c5_analysis 50000) 58500 :=
    enforce_of_long_ge _ _ hactD (by rw [htpD, hstopD, habs3]; norm_num)
  simp only [validate_enhanced_analysis, hcp]
  rw [hfill, hcc, hfe, hloc, hce, hfs, hcs, hen]
  have hentry_out : sanitized_entry (stamp_metadata (recompute_rr
      (setStop (setEntry c5_analysis 50000) 58500) 60000) c5_market "t") = 50000 := by
    rw [sanitized_entry_stamp, sanitized_entry_recompute, sanitized_entry_setStop,
        sanitized_entry_setEntry]
  have hstop_out : sanitized_stop (stamp_metadata (recompute_rr
      (setStop (setEntry c5_analysis 50000) 58500) 60000) c5_market "t") = 58500 := by
    rw [sanitized_stop_stamp, recompute_rr_stop, hstopD]
  rw [hentry_out, hstop_out]
  refine ⟨rfl, rfl, ?_⟩
  rw [show (50000:ℚ) - 58500 = -8500 by norm_num, abs_neg,
      abs_of_nonneg (by norm_num : (0:ℚ) ≤ 8500)]
  norm_num

/-- C5 (amended): whenever the incoming entry price (after the fills) lies
within 5% of the current price — so the 5% correction does not fire and the
local entry variable agrees with the stored value — the sanitized output
does satisfy |entry − stop| ≤ 3% of the current price.  When the 5%
correction fires, the bound only holds against the stale local entry, not
the stored one (see the counterexample). -/
theorem C5_amended (a : AnalysisDict) (m : MarketDict) (now : String)
    (h : |entry_price_used a (m.current_price.getD 50000) - m.current_price.getD 50000|
           ≤ m.current_price.getD 50000 * (5/100)) :
    |sanitized_entry (validate_enhanced_analysis a m now) -
     sanitized_stop (validate_enhanced_analysis a m now)| ≤
      m.current_price.getD 50000 * (3/100) := by
  set c := m.current_price.getD 50000 with hc_def
  have hc : 0 ≤ c := by
    have h0 : (0:ℚ) ≤ |entry_price_used a c - c| := abs_nonneg _
    nlinarith
  simp only [validate_enhanced_analysis]
  set a2 := clamp_confidence (fill_required a c) with ha2
  set a3 := fill_entry_price a2 c with ha3
  set e := local_entry_price a3 c with he
  have heq : e = entry_price_used a c := by
    rw [he, ha3, ha2]
    exact local_entry_eq_used a c
  have hnofire : ¬ (c * (5/100) < |e - c|) := by
    rw [heq]
    exact not_lt.mpr h
  rw [clamp_entry_price_of_close a3 e c hnofire]
  have hentry : sanitized_entry (stamp_metadata (recompute_rr (enforce_take_profits
      (clamp_stop_loss (fill_stop_loss a3 c) e c) e) e) m now) = e := by
    rw [sanitized_entry_stamp, sanitized_entry_recompute, sanitized_entry_enforce,
        sanitized_entry_clamp_stop, sanitized_entry_fill_stop]
    rw [ha3, sanitized_entry_fill_entry, he, ha3, local_entry_after_fill]
  have hstop : sanitized_stop (stamp_metadata (recompute_rr (enforce_take_profits
      (clamp_stop_loss (fill_stop_loss a3 c) e c) e) e) m now) =
      sanitized_stop (clamp_stop_loss (fill_stop_loss a3 c) e c) := by
    rw [sanitized_stop_stamp, recompute_rr_stop, enforce_take_profits_stop]
  rw [hentry, hstop]
  exact clamp_stop_loss_bound (fill_stop_loss a3 c) e c hc

/-- The C5 input with its entry price moved inside the 5% band. -/
def c5w_entry : EntryStrategy :=
  { entry_price := some 51000, entry_condition := none, position_size_percent := none }

/-- The C5 input with its entry price moved inside the 5% band. -/
def c5w_analysis : AnalysisDict := { c5_analysis with entry_strategy := some c5w_entry }

/-- C5 witness: the amended theorem applied to the concrete inputs of the
counterexample but with the entry price inside the 5% band. -/
theorem C5_witness :
    |sanitized_entry (validate_enhanced_analysis c5w_analysis c5_market "t") -
     sanitized_stop (validate_enhanced_analysis c5w_analysis c5_market "t")| ≤
      (c5_market.current_price.getD 50000) * (3/100) :=
  C5_amended c5w_analysis c5_market "t" (by
    have : entry_price_used c5w_analysis (c5_market.current_price.getD 50000) = 51000 := rfl
    rw [this, show c5_market.current_price.getD 50000 = 50000 from rfl,
        show (51000:ℚ) - 50000 = 1000 by norm_num, abs_of_nonneg (by norm_num : (0:ℚ) ≤ 1000)]
    norm_num)

/-- C3 market data: current price 50000. -/
def c3_market : MarketDict := { current_price := some 50000, symbol := some "BTCUSDT" }

/-- C3 input: a short recommendation whose risk_management block carries a
stop loss but NO take_profit_1. -/
def c3_analysis : AnalysisDict :=
  { market_sentiment := some "bearish", confidence_score := some (7/10),
    recommended_action := some "short",
    entry_strategy := some { entry_price := some 50000, entry_condition := none,
                             position_size_percent := none },
    risk_management := some { stop_loss := some 49000, take_profit_1 := none,
                              take_profit_2 := none, risk_reward_ratio := none,
                              max_loss_percent := none },
    reasoning := some "r", timestamp := none, analyzer := none, symbol := none }

/-- C3 counterexample: for a non-long recommendation with `take_profit_1`
absent, the enforcement comparison `risk_mgmt.get('take_profit_1', 0) >
min_tp1` does not fire (0 is below the positive target), the reward falls
back to `|entry - entry| = 0`, and the reported risk/reward ratio is 0,
not ≥ 2. -/
theorem C3_counterexample :
    sanitized_rr (validate_enhanced_analysis c3_analysis c3_market "t") = 0 ∧
    sanitized_rr (validate_enhanced_analysis c3_analysis c3_market "t") < 2 := by
  have hcp : c3_market.current_price.getD 50000 = 50000 := rfl
  have hfill : fill_required c3_analysis 50000 = c3_analysis :=
    fill_required_of_filled _ _ (by simp [Filled, c3_analysis])
  have hcc : clamp_confidence c3_analysis = c3_analysis :=
    clamp_confidence_of_inrange _ (by norm_num [c3_analysis])
  have hfe : fill_entry_price c3_analysis 50000 = c3_analysis :=
    fill_entry_price_of_present _ _ (by simp [c3_analysis, emptyEs])
  have hloc : local_entry_price c3_analysis 50000 = 50000 := by
    simp [local_entry_price, c3_analysis, emptyEs]
  have habs0 : |(50000:ℚ) - 50000| = 0 := by
    rw [show (50000:ℚ) - 50000 = 0 by norm_num]
    exact abs_zero
  have hce : clamp_entry_price c3_analysis 50000 50000 = c3_analysis := by
    rw [clamp_entry_price_eq, if_neg (by rw [habs0]; norm_num)]
  have hfs : fill_stop_loss c3_analysis 50000 = c3_analysis :=
    fill_stop_loss_of_present _ _ (by simp [c3_analysis, emptyRm])
  have hstop : sanitized_stop c3_analysis = 49000 := by
    simp [sanitized_stop, c3_analysis, emptyRm]
  have htp1 : sanitized_tp1 c3_analysis = none := by
    simp [sanitized_tp1, c3_analysis, emptyRm]
  have habs1 : |(50000:ℚ) - 49000| = 1000 := by
    rw [show (50000:ℚ) - 49000 = 1000 by norm_num]
    exact abs_of_nonneg (by norm_num)
  have hcs : clamp_stop_loss c3_analysis 50000 50000 = c3_analysis := by
    rw [clamp_stop_loss_eq, hstop, if_neg (by rw [habs1]; norm_num)]
  have hact : ¬ c3_analysis.recommended_action = some "long" := by
    simp [c3_analysis]
  have hen : enforce_take_profits c3_analysis 50000 = c3_analysis :=
    enforce_of_other_le _ _ hact (by rw [htp1, hstop, habs1]; norm_num)
  have hrrf : rr_formula c3_analysis 50000 = 0 := by
    unfold rr_formula
    rw [hstop, htp1, habs1, if_pos (by norm_num : (0:ℚ) < 1000)]
    rw [show (none : Option ℚ).getD 50000 = 50000 from rfl, habs0]
    norm_num
  simp only [validate_enhanced_analysis, hcp]
  rw [hfill, hcc, hfe, hloc, hce, hfs, hcs, hen,
      sanitized_rr_stamp, sanitized_rr_recompute, hrrf]
  norm_num

/-- C3 (amended): the sanitizer's output has risk_reward_ratio ≥ 2 whenever
the (filled) risk_management block actually contains a `take_profit_1` —
i.e. the key was present in the input, or the whole block was missing and
replaced by the default (which has one).  For a non-long recommendation
that has a risk_management block without `take_profit_1`, the ratio is
instead reported from the 0 default (see the counterexample). -/
theorem C3_rr_amended (a : AnalysisDict) (m : MarketDict) (now : String)
    (hp : 0 < m.current_price.getD 50000)
    (htp : (a.risk_management.getD
        (default_risk_management (m.current_price.getD 50000))).take_profit_1 ≠ none) :
    2 ≤ sanitized_rr (validate_enhanced_analysis a m now) := by
  set c := m.current_price.getD 50000 with hc_def
  simp only [validate_enhanced_analysis]
  set a2 := clamp_confidence (fill_required a c) with ha2
  set a3 := fill_entry_price a2 c with ha3
  set e := local_entry_price a3 c with he
  set a4 := clamp_entry_price a3 e c with ha4
  set a5 := fill_stop_loss a4 c with ha5
  set a6 := clamp_stop_loss a5 e c with ha6
  set a7 := enforce_take_profits a6 e with ha7
  rw [sanitized_rr_stamp, sanitized_rr_recompute]
  have htp6 : sanitized_tp1 a6 =
      (a.risk_management.getD (default_risk_management c)).take_profit_1 := by
    rw [ha6, clamp_stop_loss_tp1, ha5, sanitized_tp1_fill_stop, ha4,
        sanitized_tp1_clamp_entry, ha3, sanitized_tp1_fill_entry, ha2,
        sanitized_tp1_clamp_confidence, sanitized_tp1_fill_required]
  have htp7some : sanitized_tp1 a7 ≠ none := by
    rw [ha7]
    exact enforce_tp1_isSome a6 e (by rw [htp6]; exact htp)
  obtain ⟨t, ht⟩ := Option.ne_none_iff_exists'.mp htp7some
  have hstop7 : sanitized_stop a7 = sanitized_stop a6 := by
    rw [ha7, enforce_take_profits_stop]
  unfold rr_formula
  by_cases hr0 : 0 < |e - sanitized_stop a7|
  · rw [if_pos hr0, ht, Option.getD_some]
    by_cases hact : a6.recommended_action = some "long"
    · have hpost := enforce_tp1_long a6 e hact
      rw [← ha7, ht, Option.getD_some, ← hstop7] at hpost
      have h2 : |t - e| = t - e := abs_of_nonneg (by nlinarith [abs_nonneg (e - sanitized_stop a7)])
      rw [h2, le_div_iff₀ hr0]
      linarith
    · have hpost := enforce_tp1_other a6 e hact
      rw [← ha7, ht, Option.getD_some, ← hstop7] at hpost
      have h2 : |t - e| = -(t - e) := abs_of_nonpos (by nlinarith [abs_nonneg (e - sanitized_stop a7)])
      rw [h2, le_div_iff₀ hr0]
      linarith
  · rw [if_neg hr0]

/-- The C3 input with a take profit supplied. -/
def c3w_rm : RiskBlock :=
  { stop_loss := some 49000, take_profit_1 := some 52000, take_profit_2 := none,
    risk_reward_ratio := none, max_loss_percent := none }

/-- The C3 input with a take profit supplied. -/
def c3w_analysis : AnalysisDict := { c3_analysis with risk_management := some c3w_rm }

/-- C3 witness: the amended theorem applied to the concrete short
recommendation that does carry a `take_profit_1`. -/
theorem C3_witness :
    2 ≤ sanitized_rr (validate_enhanced_analysis c3w_analysis c3_market "t") :=
  C3_rr_amended c3w_analysis c3_market "t" (by norm_num [c3_market])
    (by simp [c3w_analysis, c3w_rm])

/-- C6 market data: current price 50000. -/
def c6_market : MarketDict := { current_price := some 50000, symbol := some "BTCUSDT" }

/-- C6 input: same shape as the C5 counterexample — the 5% entry correction
fires, which desynchronises the stored entry from the stale local one. -/
def c6_analysis : AnalysisDict :=
  { market_sentiment := some "bullish", confidence_score := some (4/5),
    recommended_action := some "long",
    entry_strategy := some { entry_price := some 60000, entry_condition := none,
                             position_size_percent := none },
    risk_management := some { stop_loss := some 57000, take_profit_1 := some 100000,
                              take_profit_2 := some 120000, risk_reward_ratio := some 2,
                              max_loss_percent := none },
    reasoning := some "r", timestamp := none, analyzer := none, symbol := none }

/-- Evaluation of the first sanitizer pass on the C6 input. -/
theorem validate_c6_eval :
    validate_enhanced_analysis c6_analysis c6_market "t" =
      stamp_metadata (recompute_rr (setStop (setEntry c6_analysis 50000) 58500) 60000)
        c6_market "t" := by
  have hcp : c6_market.current_price.getD 50000 = 50000 := rfl
  have hfill : fill_required c6_analysis 50000 = c6_analysis :=
    fill_required_of_filled _ _ (by simp [Filled, c6_analysis])
  have hcc : clamp_confidence c6_analysis = c6_analysis :=
    clamp_confidence_of_inrange _ (by norm_num [c6_analysis])
  have hfe : fill_entry_price c6_analysis 50000 = c6_analysis :=
    fill_entry_price_of_present _ _ (by simp [c6_analysis, emptyEs])
  have hloc : local_entry_price c6_analysis 50000 = 60000 := by
    simp [local_entry_price, c6_analysis, emptyEs]
  have habs1 : |(60000:ℚ) - 50000| = 10000 := by
    rw [show (60000:ℚ) - 50000 = 10000 by norm_num]
    exact abs_of_nonneg (by norm_num)
  have hce : clamp_entry_price c6_analysis 60000 50000 = setEntry c6_analysis 50000 := by
    rw [clamp_entry_price_eq, if_pos (by rw [habs1]; norm_num)]
  have hfs : fill_stop_loss (setEntry c6_analysis 50000) 50000 = setEntry c6_analysis 50000 :=
    fill_stop_loss_of_present _ _ (by simp [c6_analysis, setEntry, emptyRm])
  have hstopB : sanitized_stop (setEntry c6_analysis 50000) = 57000 := by
    simp [sanitized_stop, setEntry, c6_analysis, emptyRm]
  have habs2 : |(60000:ℚ) - 57000| = 3000 := by
    rw [show (60000:ℚ) - 57000 = 3000 by norm_num]
    exact abs_of_nonneg (by norm_num)
  have hlong : (setEntry c6_analysis 50000).recommended_action = some "long" := rfl
  have hcs : clamp_stop_loss (setEntry c6_analysis 50000) 60000 50000 =
      setStop (setEntry c6_analysis 50000) 58500 := by
    rw [clamp_stop_loss_eq, hstopB, if_pos (by rw [habs2]; norm_num), if_pos hlong]
    norm_num
  have hstopD : sanitized_stop (setStop (setEntry c6_analysis 50000) 58500) = 58500 :=
    sanitized_stop_setStop _ _
  have htpD : sanitized_tp1 (setStop (setEntry c6_analysis 50000) 58500) = some 100000 := by
    simp [sanitized_tp1, setStop, setEntry, c6_analysis, emptyRm]
  have habs3 : |(60000:ℚ) - 58500| = 1500 := by
    rw [show (60000:ℚ) - 58500 = 1500 by norm_num]
    exact abs_of_nonneg (by norm_num)
  have hactD : (setStop (setEntry c6_analysis 50000) 58500).recommended_action =
      some "long" := rfl
  have hen : enforce_take_profits (setStop (setEntry c6_analysis 50000) 58500) 60000 =
      setStop (setEntry c6_analysis 50000) 58500 :=
    enforce_of_long_ge _ _ hactD (by rw [htpD, hstopD, habs3]; norm_num)
  simp only [validate_enhanced_analysis, hcp]
  rw [hfill, hcc, hfe, hloc, hce, hfs, hcs, hen]

/-- C6 counterexample: on the C6 input the first pass stores entry 50000
with stop 58500; the second pass then clamps the stop to 48500 (measuring
from the now-consistent entry 50000), so sanitizing twice differs from
sanitizing once. -/
theorem C6_counterexample :
    validate_enhanced_analysis (validate_enhanced_analysis c6_analysis c6_market "t")
        c6_market "t" ≠
      validate_enhanced_analysis c6_analysis c6_market "t" := by
  have hcp : c6_market.current_price.getD 50000 = 50000 := rfl
  set out1 := validate_enhanced_analysis c6_analysis c6_market "t" with hout1
  have hev := validate_c6_eval
  rw [← hout1] at hev
  -- field facts about the first pass's output
  have f_filled : Filled out1 := by
    rw [hout1]
    exact filled_validate c6_analysis c6_market "t"
  have f_cs : out1.confidence_score = some (4/5) := by
    rw [hev]
    rfl
  have f_act : out1.recommended_action = some "long" := by
    rw [hev]
    rfl
  have f_entryOpt : (out1.entry_strategy.getD emptyEs).entry_price = some 50000 := by
    rw [hev]
    rw [show (stamp_metadata (recompute_rr (setStop (setEntry c6_analysis 50000) 58500) 60000)
          c6_market "t").entry_strategy =
        (setEntry c6_analysis 50000).entry_strategy from rfl]
    exact setEntry_entry_price c6_analysis 50000
  have f_stop : sanitized_stop out1 = 58500 := by
    rw [hev, sanitized_stop_stamp, recompute_rr_stop, sanitized_stop_setStop]
  have f_stopOpt : (out1.risk_management.getD emptyRm).stop_loss = some 58500 := by
    rw [hev]
    rw [show (stamp_metadata (recompute_rr (setStop (setEntry c6_analysis 50000) 58500) 60000)
          c6_market "t").risk_management =
        (recompute_rr (setStop (setEntry c6_analysis 50000) 58500) 60000).risk_management
        from rfl]
    rw [show ((recompute_rr (setStop (setEntry c6_analysis 50000) 58500)
          60000).risk_management.getD emptyRm).stop_loss =
        ((setStop (setEntry c6_analysis 50000) 58500).risk_management.getD emptyRm).stop_loss
        from stopOpt_recompute _ _]
    exact setStop_stop_isSome _ _
  have f_tp1 : sanitized_tp1 out1 = some 100000 := by
    rw [hev, sanitized_tp1_stamp, recompute_rr_tp1, sanitized_tp1_setStop]
    simp [sanitized_tp1, setEntry, c6_analysis, emptyRm]
  -- second pass
  have p1 : fill_required out1 50000 = out1 := fill_required_of_filled _ _ f_filled
  have p2 : clamp_confidence out1 = out1 :=
    clamp_confidence_of_inrange _ (by rw [f_cs]; norm_num)
  have p3 : fill_entry_price out1 50000 = out1 :=
    fill_entry_price_of_present _ _ (by rw [f_entryOpt]; simp)
  have p4 : local_entry_price out1 50000 = 50000 := by
    unfold local_entry_price
    rw [f_entryOpt]
    rfl
  have habs0 : |(50000:ℚ) - 50000| = 0 := by
    rw [show (50000:ℚ) - 50000 = 0 by norm_num]
    exact abs_zero
  have p5 : clamp_entry_price out1 50000 50000 = out1 := by
    rw [clamp_entry_price_eq, if_neg (by rw [habs0]; norm_num)]
  have p6 : fill_stop_loss out1 50000 = out1 :=
    fill_stop_loss_of_present _ _ (by rw [f_stopOpt]; simp)
  have habs4 : |(50000:ℚ) - 58500| = 8500 := by
    rw [show (50000:ℚ) - 58500 = -8500 by norm_num, abs_neg]
    exact abs_of_nonneg (by norm_num)
  have p7 : clamp_stop_loss out1 50000 50000 = setStop out1 48500 := by
    rw [clamp_stop_loss_eq, f_stop, if_pos (by rw [habs4]; norm_num), if_pos f_act]
    norm_num
  intro heq
  have hstop2 : sanitized_stop (validate_enhanced_analysis out1 c6_market "t") = 48500 := by
    simp only [validate_enhanced_analysis, hcp]
    rw [p1, p2, p3, p4, p5, p6, p7]
    rw [sanitized_stop_stamp, recompute_rr_stop, enforce_take_profits_stop,
        sanitized_stop_setStop]
  rw [heq, f_stop] at hstop2
  norm_num at hstop2

/-- C6 (amended): the sanitizer is idempotent (same market data and
timestamp) whenever the incoming entry price lies within 5% of the current
price, so that the entry replacement does not fire and the local entry
variable agrees with the stored value.  When the replacement fires, the
second pass re-clamps the stop against the new entry and the output changes
(see the counterexample). -/
theorem C6_idempotent_amended (a : AnalysisDict) (m : MarketDict) (now : String)
    (h : |entry_price_used a (m.current_price.getD 50000) - m.current_price.getD 50000|
           ≤ m.current_price.getD 50000 * (5/100)) :
    validate_enhanced_analysis (validate_enhanced_analysis a m now) m now =
      validate_enhanced_analysis a m now := by
  set c := m.current_price.getD 50000 with hc_def
  have hc : 0 ≤ c := by
    have h0 : (0:ℚ) ≤ |entry_price_used a c - c| := abs_nonneg _
    nlinarith
  set a2 := clamp_confidence (fill_required a c) with ha2
  set a3 := fill_entry_price a2 c with ha3
  set e := local_entry_price a3 c with he
  have heq : e = entry_price_used a c := by
    rw [he, ha3, ha2]
    exact local_entry_eq_used a c
  have hnofire : ¬ (c * (5/100) < |e - c|) := by
    rw [heq]
    exact not_lt.mpr h
  have ha4 : clamp_entry_price a3 e c = a3 := clamp_entry_price_of_close a3 e c hnofire
  set a5 := fill_stop_loss a3 c with ha5
  set a6 := clamp_stop_loss a5 e c with ha6
  set a7 := enforce_take_profits a6 e with ha7
  set out := stamp_metadata (recompute_rr a7 e) m now with hout_def
  have hout : validate_enhanced_analysis a m now = out := by
    simp only [validate_enhanced_analysis]
    rw [← hc_def, ← ha2, ← ha3, ← he, ha4, ← ha5, ← ha6, ← ha7]
  rw [hout]
  -- facts about the first pass's output
  have f_filled : Filled out := by
    rw [← hout]
    exact filled_validate a m now
  have f_cs : out.confidence_score = a2.confidence_score := by
    rw [hout_def, stamp_metadata_cs, recompute_rr_cs, ha7, enforce_take_profits_cs,
        ha6, clamp_stop_loss_cs, ha5, fill_stop_loss_cs, ha3, fill_entry_price_cs]
  have f_entryOpt : (out.entry_strategy.getD emptyEs).entry_price = some e := by
    rw [hout_def]
    rw [show (stamp_metadata (recompute_rr a7 e) m now).entry_strategy =
        (recompute_rr a7 e).entry_strategy from rfl]
    rw [recompute_rr_entry, ha7, enforce_take_profits_entry, ha6, clamp_stop_loss_entry,
        ha5, fill_stop_loss_entry, ha3, fill_entry_price_entry_val]
    rw [he, ha3, local_entry_after_fill]
  have f_stop : sanitized_stop out = sanitized_stop a6 := by
    rw [hout_def, sanitized_stop_stamp, recompute_rr_stop, ha7, enforce_take_profits_stop]
  have f_stopOpt : (out.risk_management.getD emptyRm).stop_loss ≠ none := by
    rw [hout_def]
    rw [show (stamp_metadata (recompute_rr a7 e) m now).risk_management =
        (recompute_rr a7 e).risk_management from rfl]
    rw [show ((recompute_rr a7 e).risk_management.getD emptyRm).stop_loss =
        ((a7.risk_management.getD emptyRm)).stop_loss from stopOpt_recompute a7 e]
    rw [ha7]
    rw [show ((enforce_take_profits a6 e).risk_management.getD emptyRm).stop_loss =
        ((a6.risk_management.getD emptyRm)).stop_loss from stopOpt_enforce a6 e]
    rw [ha6]
    exact clamp_stop_loss_stop_isSome a5 e c (by rw [ha5]; exact fill_stop_loss_stop_isSome a3 c)
  have f_act : out.recommended_action = a6.recommended_action := by
    rw [hout_def, stamp_metadata_action, recompute_rr_action, ha7, enforce_take_profits_action]
  have f_tp1 : sanitized_tp1 out = sanitized_tp1 a7 := by
    rw [hout_def, sanitized_tp1_stamp, recompute_rr_tp1]
  -- pass 2, phase by phase
  have p1 : fill_required out c = out := fill_required_of_filled _ _ f_filled
  have p2 : clamp_confidence out = out := by
    apply clamp_confidence_of_inrange
    rw [f_cs, ha2]
    exact clamp_confidence_inrange (fill_required a c)
  have p3 : fill_entry_price out c = out :=
    fill_entry_price_of_present _ _ (by rw [f_entryOpt]; simp)
  have p4 : local_entry_price out c = e := by
    unfold local_entry_price
    rw [f_entryOpt, Option.getD_some]
  have p5 : clamp_entry_price out e c = out := clamp_entry_price_of_close _ _ _ hnofire
  have p6 : fill_stop_loss out c = out := fill_stop_loss_of_present _ _ f_stopOpt
  have hbound : |e - sanitized_stop a6| ≤ c * (3/100) := by
    rw [ha6]
    exact clamp_stop_loss_bound a5 e c hc
  have p7 : clamp_stop_loss out e c = out :=
    clamp_stop_loss_of_close _ _ _ (by rw [f_stop]; exact not_lt.mpr hbound)
  have p8 : enforce_take_profits out e = out := by
    by_cases hact : a6.recommended_action = some "long"
    · apply enforce_of_long_ge _ _ (by rw [f_act]; exact hact)
      rw [f_stop, f_tp1, ha7]
      exact enforce_tp1_long a6 e hact
    · apply enforce_of_other_le _ _ (by rw [f_act]; exact hact)
      rw [f_stop, f_tp1, ha7]
      exact enforce_tp1_other a6 e hact
  have p9 : recompute_rr out e = out := by
    apply recompute_rr_fix out e
      ({ a7.risk_management.getD emptyRm with risk_reward_ratio := some (rr_formula a7 e) })
    · rw [hout_def]
      rw [show (stamp_metadata (recompute_rr a7 e) m now).risk_management =
          (recompute_rr a7 e).risk_management from rfl]
      exact rmOpt_recompute a7 e
    · have hcongr : rr_formula out e = rr_formula a7 e := by
        apply rr_formula_congr
        · rw [f_stop, ha7, enforce_take_profits_stop]
        · exact f_tp1
      rw [hcongr]
  have p10 : stamp_metadata out m now = out := by
    apply stamp_metadata_fix
    · rw [hout_def]
      exact stamp_metadata_timestamp _ _ _
    · rw [hout_def]
      exact stamp_metadata_analyzer _ _ _
    · rw [hout_def]
      exact stamp_metadata_symbol _ _ _
  simp only [validate_enhanced_analysis]
  rw [← hc_def, p1, p2, p3, p4, p5, p6, p7, p8, p9, p10]

/-- The C6 input with its entry price moved inside the 5% band. -/
def c6w_entry : EntryStrategy :=
  { entry_price := some 51000, entry_condition := none, position_size_percent := none }

/-- The C6 input with its entry price moved inside the 5% band. -/
def c6w_analysis : AnalysisDict := { c6_analysis with entry_strategy := some c6w_entry }

/-- C6 witness: the amended idempotence theorem applied to the concrete
input whose entry price lies inside the 5% band. -/
theorem C6_witness :
    validate_enhanced_analysis (validate_enhanced_analysis c6w_analysis c6_market "t")
        c6_market "t" =
      validate_enhanced_analysis c6w_analysis c6_market "t" :=
  C6_idempotent_amended c6w_analysis c6_market "t" (by
    have : entry_price_used c6w_analysis (c6_market.current_price.getD 50000) = 51000 := rfl
    rw [this, show c6_market.current_price.getD 50000 = 50000 from rfl,
        show (51000:ℚ) - 50000 = 1000 by norm_num, abs_of_nonneg (by norm_num : (0:ℚ) ≤ 1000)]
    norm_num)

/-! ## Dynamic embedding of the validator (for the exception behaviour)

`validate_enhanced_analysis` has no `try`/`except`: Python raises
`TypeError` out of it when a field value has an unexpected type (the caller
`analyze_market` catches everything and substitutes the mock fallback).
To state that, the function is re-embedded over a universe of dynamic
Python values, with `Except` for a raised exception.  Dictionaries are
modelled as ordered association lists by value (Python object aliasing
between distinct keys is not representable, and is not exercised by the
function).  The typed embedding above is this one restricted to
well-typed field values. -/

/-- A dynamic Python value: number, string, or dictionary. -/
inductive PyVal where
  | num (q : ℚ)
  | str (s : String)
  | dict (entries : List (String × PyVal))
  deriving Repr

/-- Python dictionary lookup (`d[k]` when present). -/
def dictGet (d : List (String × PyVal)) (k : String) : Option PyVal :=
  match d with
  | [] => none
  | (k2, v) :: rest => if k2 = k then some v else dictGet rest k

/-- Python `d.get(k, default)`. -/
def dictGetD (d : List (String × PyVal)) (k : String) (v : PyVal) : PyVal :=
  (dictGet d k).getD v

/-- Python `k in d` for a dictionary. -/
def dictContains (d : List (String × PyVal)) (k : String) : Bool :=
  (dictGet d k).isSome

/-- Python `d[k] = v`: update in place, or append a new key. -/
def dictSet (d : List (String × PyVal)) (k : String) (v : PyVal) :
    List (String × PyVal) :=
  match d with
  | [] => [(k, v)]
  | (k2, v2) :: rest =>
      if k2 = k then (k2, v) :: rest else (k2, v2) :: dictSet rest k v

/-- Python binary `-` (numbers only here; anything else raises). -/
def pySub : PyVal → PyVal → Except String PyVal
  | .num x, .num y => .ok (.num (x - y))
  | _, _ => .error "TypeError"

/-- Python binary `+` on the values this function adds. -/
def pyAdd : PyVal → PyVal → Except String PyVal
  | .num x, .num y => .ok (.num (x + y))
  | _, _ => .error "TypeError"

/-- Python binary `*` (the second operand is always a float literal here). -/
def pyMul : PyVal → PyVal → Except String PyVal
  | .num x, .num y => .ok (.num (x * y))
  | _, _ => .error "TypeError"

/-- Python `/` (float division). -/
def pyDiv : PyVal → PyVal → Except String PyVal
  | .num x, .num y => if y = 0 then .error "ZeroDivisionError" else .ok (.num (x / y))
  | _, _ => .error "TypeError"

/-- Python `abs`. -/
def pyAbs : PyVal → Except String PyVal
  | .num x => .ok (.num |x|)
  | _ => .error "TypeError"

/-- Python `<` (numeric comparisons only occur here; number vs anything
else raises). -/
def pyLtB : PyVal → PyVal → Except String Bool
  | .num x, .num y => .ok (decide (x < y))
  | _, _ => .error "TypeError"

/-- Python `<=` (same typing discipline as `pyLtB`). -/
def pyLeB : PyVal → PyVal → Except String Bool
  | .num x, .num y => .ok (decide (x ≤ y))
  | _, _ => .error "TypeError"

/-- Python `min` of a number literal and a value. -/
def pyMin : PyVal → PyVal → Except String PyVal
  | .num x, .num y => .ok (.num (min x y))
  | _, _ => .error "TypeError"

/-- Python `max` of a number literal and a value. -/
def pyMax : PyVal → PyVal → Except String PyVal
  | .num x, .num y => .ok (.num (max x y))
  | _, _ => .error "TypeError"

/-- Python `v == "s"` for a string literal: never raises, `False` across
types. -/
def pyEqStr (v : PyVal) (s : String) : Bool :=
  match v with
  | .str t => t = s
  | _ => false

/-- Whether the first character list is a prefix of the second. -/
def listPrefixB : List Char → List Char → Bool
  | [], _ => true
  | _ :: _, [] => false
  | a :: as, b :: bs => a == b && listPrefixB as bs

/-- Whether the first character list occurs inside the second. -/
def listInfixB (sub : List Char) : List Char → Bool
  | [] => listPrefixB sub []
  | b :: rest => listPrefixB sub (b :: rest) || listInfixB sub rest

/-- Python `k not in v`: key test on a dict, substring test on a string,
`TypeError` on a number. -/
def pyNotIn (k : String) (v : PyVal) : Except String Bool :=
  match v with
  | .dict d => .ok (!(dictContains d k))
  | .str s => .ok (!(listInfixB k.toList s.toList))
  | .num _ => .error "TypeError"

/-- Python `v[k] = x`: item assignment (dicts only). -/
def pySetItem (v : PyVal) (k : String) (x : PyVal) : Except String PyVal :=
  match v with
  | .dict d => .ok (.dict (dictSet d k x))
  | _ => .error "TypeError"

/-- Python `v[k]`: subscription; `KeyError` when absent, `TypeError` on a
non-dict. -/
def pyGetItem (v : PyVal) (k : String) : Except String PyVal :=
  match v with
  | .dict d =>
      match dictGet d k with
      | some x => .ok x
      | none => .error "KeyError"
  | _ => .error "TypeError"

/-- Python `v.get(k, default)`: `AttributeError` on a non-dict. -/
def pyDictGetD (v : PyVal) (k : String) (d : PyVal) : Except String PyVal :=
  match v with
  | .dict l => .ok (dictGetD l k d)
  | _ => .error "AttributeError"

/-- `analysis.get('recommended_action') == 'long'` (a missing key yields
`None`, which compares unequal to `'long'`). -/
def isLongDyn (a : List (String × PyVal)) : Bool :=
  match dictGet a "recommended_action" with
  | some v => pyEqStr v "long"
  | none => false

/-- `AnalysisValidatorTool.get_enhanced_default_value` (tool.py lines
82–102): the whole defaults dictionary is built on every call, so the
arithmetic on `current_price` runs (and can raise) even for the string
fields. -/
def get_enhanced_default_value_dyn (field : String) (current_price : PyVal) :
    Except String PyVal := do
  let sl ← pyMul current_price (.num (98/100))
  let t1 ← pyMul current_price (.num (104/100))
  let t2 ← pyMul current_price (.num (108/100))
  let defaults : List (String × PyVal) :=
    [("market_sentiment", .str "neutral"),
     ("confidence_score", .num (3/10)),
     ("recommended_action", .str "wait"),
     ("entry_strategy", .dict
        [("entry_price", current_price),
         ("entry_condition", .str "market order"),
         ("position_size_percent", .num 2)]),
     ("risk_management", .dict
        [("stop_loss", sl), ("take_profit_1", t1), ("take_profit_2", t2),
         ("risk_reward_ratio", .num 2), ("max_loss_percent", .num 2)]),
     ("reasoning", .str "Analysis performed with default parameters due to incomplete data")]
  .ok (dictGetD defaults field (.dict []))

/-- One iteration of the required-fields loop (tool.py lines 24–27). -/
def fillFieldDyn (a : List (String × PyVal)) (field : String)
    (current_price : PyVal) : Except String (List (String × PyVal)) := do
  if dictContains a field then .ok a
  else do
    let d ← get_enhanced_default_value_dyn field current_price
    .ok (dictSet a field d)

/-- The required-fields loop (tool.py lines 18–27). -/
def fill_required_dyn (a : List (String × PyVal)) (current_price : PyVal) :
    Except String (List (String × PyVal)) := do
  let a1 ← fillFieldDyn a "market_sentiment" current_price
  let a2 ← fillFieldDyn a1 "confidence_score" current_price
  let a3 ← fillFieldDyn a2 "recommended_action" current_price
  let a4 ← fillFieldDyn a3 "entry_strategy" current_price
  let a5 ← fillFieldDyn a4 "risk_management" current_price
  fillFieldDyn a5 "reasoning" current_price

/-- The confidence clamp (tool.py lines 29–31), with Python's chained
comparison `0 <= x <= 1` short-circuiting. -/
def clamp_confidence_dyn (a : List (String × PyVal)) :
    Except String (List (String × PyVal)) := do
  let cs := dictGetD a "confidence_score" (.num 0)
  let b1 ← pyLeB (.num 0) cs
  let ok ← if b1 then pyLeB cs (.num 1) else .ok false
  if !ok then do
    let v := dictGetD a "confidence_score" (.num (1/2))
    let m1 ← pyMin (.num 1) v
    let m2 ← pyMax (.num 0) m1
    .ok (dictSet a "confidence_score" m2)
  else .ok a

/-- The entry-strategy block (tool.py lines 33–40): returns the mutated
sub-dictionary and the stale local `entry_price`. -/
def entry_block_dyn (a : List (String × PyVal)) (current_price : PyVal) :
    Except String (PyVal × PyVal) := do
  let es0 := dictGetD a "entry_strategy" (.dict [])
  let b ← pyNotIn "entry_price" es0
  let es1 ← if b then pySetItem es0 "entry_price" current_price else .ok es0
  let entry_price ← pyGetItem es1 "entry_price"
  let d ← pySub entry_price current_price
  let ad ← pyAbs d
  let thresh ← pyMul current_price (.num (5/100))
  let b2 ← pyLtB thresh ad
  let es2 ← if b2 then pySetItem es1 "entry_price" current_price else .ok es1
  .ok (es2, entry_price)

/-- The stop-loss block (tool.py lines 42–54). -/
def stop_block_dyn (a : List (String × PyVal)) (current_price entry_price : PyVal) :
    Except String PyVal := do
  let rm0 := dictGetD a "risk_management" (.dict [])
  let b ← pyNotIn "stop_loss" rm0
  let rm1 ← if b then do
      let sl ← pyMul current_price (.num (98/100))
      pySetItem rm0 "stop_loss" sl
    else .ok rm0
  let stop_loss ← pyGetItem rm1 "stop_loss"
  let msd ← pyMul current_price (.num (3/100))
  let d ← pySub entry_price stop_loss
  let ad ← pyAbs d
  let b2 ← pyLtB msd ad
  if b2 then
    if isLongDyn a then do
      let v ← pySub entry_price msd
      pySetItem rm1 "stop_loss" v
    else do
      let v ← pyAdd entry_price msd
      pySetItem rm1 "stop_loss" v
  else .ok rm1

/-- The local `risk = abs(entry_price - risk_mgmt['stop_loss'])` (line 57). -/
def risk_dyn (rm entry_price : PyVal) : Except String PyVal := do
  let stop ← pyGetItem rm "stop_loss"
  let d ← pySub entry_price stop
  pyAbs d

/-- The take-profit block (tool.py lines 56–69). -/
def tp_block_dyn (a : List (String × PyVal)) (rm2 entry_price risk : PyVal) :
    Except String PyVal := do
  let min_reward ← pyMul risk (.num 2)
  if isLongDyn a then do
    let min_tp1 ← pyAdd entry_price min_reward
    let cur ← pyDictGetD rm2 "take_profit_1" (.num 0)
    let b ← pyLtB cur min_tp1
    if b then do
      let t2 ← pyMul min_tp1 (.num (3/2))
      let r1 ← pySetItem rm2 "take_profit_1" min_tp1
      pySetItem r1 "take_profit_2" t2
    else .ok rm2
  else do
    let min_tp1 ← pySub entry_price min_reward
    let cur ← pyDictGetD rm2 "take_profit_1" (.num 0)
    let b ← pyLtB min_tp1 cur
    if b then do
      let t2 ← pyDiv min_tp1 (.num (3/2))
      let r1 ← pySetItem rm2 "take_profit_1" min_tp1
      pySetItem r1 "take_profit_2" t2
    else .ok rm2

/-- The risk/reward recomputation (tool.py lines 71–73). -/
def rr_block_dyn (rm3 entry_price risk : PyVal) : Except String PyVal := do
  let tp1 ← pyDictGetD rm3 "take_profit_1" entry_price
  let d ← pySub tp1 entry_price
  let reward ← pyAbs d
  let b ← pyLtB (.num 0) risk
  let rr ← if b then pyDiv reward risk else .ok (.num 2)
  pySetItem rm3 "risk_reward_ratio" rr

/-- `AnalysisValidatorTool.validate_enhanced_analysis` over dynamic values
(tool.py lines 13–80).  The sub-dictionary mutations performed through the
local aliases `entry_strategy` / `risk_mgmt` are written back into the
analysis dictionary, which is equivalent for tree-shaped inputs. -/
def validate_enhanced_analysis_dyn (analysis market_data : List (String × PyVal))
    (now : String) : Except String (List (String × PyVal)) := do
  let current_price := dictGetD market_data "current_price" (.num 50000)
  let a1 ← fill_required_dyn analysis current_price
  let a2 ← clamp_confidence_dyn a1
  let (es2, entry_price) ← entry_block_dyn a2 current_price
  let rm2 ← stop_block_dyn a2 current_price entry_price
  let risk ← risk_dyn rm2 entry_price
  let rm3 ← tp_block_dyn a2 rm2 entry_price risk
  let rm4 ← rr_block_dyn rm3 entry_price risk
  let a3 := dictSet a2 "timestamp" (.str now)
  let a4 := dictSet a3 "analyzer" (.str "claude_enhanced")
  let a5 := dictSet a4 "symbol" (dictGetD market_data "symbol" (.str "UNKNOWN"))
  .ok (dictSet (dictSet a5 "entry_strategy" es2) "risk_management" rm4)

/-- C4 input: every required field present, but `confidence_score` is the
STRING `"high"`. -/
def c4_analysis : List (String × PyVal) :=
  [("market_sentiment", .str "neutral"), ("confidence_score", .str "high"),
   ("recommended_action", .str "wait"),
   ("entry_strategy", .dict [("entry_price", .num 50000)]),
   ("risk_management", .dict [("stop_loss", .num 49000)]),
   ("reasoning", .str "r")]

/-- C4 market data. -/
def c4_market : List (String × PyVal) := [("current_price", .num 50000)]

/-- C4 counterexample: on a recommendation whose `confidence_score` is a
string, the comparison `0 <= analysis.get('confidence_score', 0)` raises
`TypeError`, and `validate_enhanced_analysis` (which contains no exception
handler) propagates it instead of substituting a default. -/
theorem C4_counterexample :
    validate_enhanced_analysis_dyn c4_analysis c4_market "t" = .error "TypeError" := rfl

/-! ### Dictionary lemmas for the dynamic embedding -/

theorem dictGet_set_self (d : List (String × PyVal)) (k : String) (v : PyVal) :
    dictGet (dictSet d k v) k = some v := by
  induction d with
  | nil => simp [dictSet, dictGet]
  | cons p rest ih =>
    obtain ⟨k2, v2⟩ := p
    by_cases h : k2 = k
    · simp [dictSet, dictGet, h]
    · simp [dictSet, dictGet, h, ih]

theorem dictGet_set_ne (d : List (String × PyVal)) (k k2 : String) (v : PyVal)
    (h : k ≠ k2) : dictGet (dictSet d k v) k2 = dictGet d k2 := by
  induction d with
  | nil => simp [dictSet, dictGet, h]
  | cons p rest ih =>
    obtain ⟨k3, v3⟩ := p
    by_cases h3 : k3 = k
    · subst h3
      simp [dictSet, dictGet, h]
    · simp [dictSet, dictGet, h3, ih]

theorem dictContains_false_iff (d : List (String × PyVal)) (k : String) :
    dictContains d k = false ↔ dictGet d k = none := by
  unfold dictContains
  cases dictGet d k <;> simp

theorem dictContains_true_iff (d : List (String × PyVal)) (k : String) :
    dictContains d k = true ↔ ∃ v, dictGet d k = some v := by
  unfold dictContains
  cases dictGet d k <;> simp

/-! ### Well-typed inputs for the dynamic sanitizer -/

/-- The value under a key, when present, is a number. -/
def NumIfPresent (l : List (String × PyVal)) (k : String) : Prop :=
  ∀ v, dictGet l k = some v → ∃ x, v = PyVal.num x

/-- A well-typed recommendation dictionary: `confidence_score` is a number
when present; `entry_strategy` and `risk_management` are dictionaries whose
read numeric members are numbers when present.  No other value is ever
used in a type-sensitive operation. -/
def WFAnalysisDyn (a : List (String × PyVal)) : Prop :=
  NumIfPresent a "confidence_score" ∧
  (∀ v, dictGet a "entry_strategy" = some v →
     ∃ l, v = PyVal.dict l ∧ NumIfPresent l "entry_price") ∧
  (∀ v, dictGet a "risk_management" = some v →
     ∃ l, v = PyVal.dict l ∧ NumIfPresent l "stop_loss" ∧ NumIfPresent l "take_profit_1")

/-- A well-typed market-data dictionary: numeric current price if present. -/
def WFMarketDyn (m : List (String × PyVal)) : Prop :=
  NumIfPresent m "current_price"

/-- The state after the required-field fills. -/
def PostFill (a : List (String × PyVal)) : Prop :=
  (∃ q, dictGet a "confidence_score" = some (.num q)) ∧
  (∃ l, dictGet a "entry_strategy" = some (.dict l) ∧ NumIfPresent l "entry_price") ∧
  (∃ l, dictGet a "risk_management" = some (.dict l) ∧
     NumIfPresent l "stop_loss" ∧ NumIfPresent l "take_profit_1")

theorem except_bind_ok {α β : Type} (x : α) (f : α → Except String β) :
    (Except.ok x >>= f) = f x := rfl

/-- The defaults dictionary built by `get_enhanced_default_value` for a
numeric current price. -/
def defaultsList (x : ℚ) : List (String × PyVal) :=
  [("market_sentiment", .str "neutral"),
   ("confidence_score", .num (3/10)),
   ("recommended_action", .str "wait"),
   ("entry_strategy", .dict
      [("entry_price", .num x),
       ("entry_condition", .str "market order"),
       ("position_size_percent", .num 2)]),
   ("risk_management", .dict
      [("stop_loss", .num (x * (98/100))), ("take_profit_1", .num (x * (104/100))),
       ("take_profit_2", .num (x * (108/100))),
       ("risk_reward_ratio", .num 2), ("max_loss_percent", .num 2)]),
   ("reasoning", .str "Analysis performed with default parameters due to incomplete data")]

/-- `get_enhanced_default_value` succeeds on a numeric current price. -/
theorem gedv_ok_num (field : String) (x : ℚ) :
    get_enhanced_default_value_dyn field (.num x) =
      .ok (dictGetD (defaultsList x) field (.dict [])) := rfl

/-- One fill step succeeds on a numeric current price, and changes at most
its own key (to its default when it was absent). -/
theorem fillFieldDyn_spec (a : List (String × PyVal)) (field : String) (x : ℚ) :
    ∃ a2, fillFieldDyn a field (.num x) = .ok a2 ∧
      (∀ k, k ≠ field → dictGet a2 k = dictGet a k) ∧
      (((∃ v, dictGet a field = some v) ∧ dictGet a2 field = dictGet a field) ∨
       (dictGet a field = none ∧
        ∃ d, get_enhanced_default_value_dyn field (.num x) = .ok d ∧
          dictGet a2 field = some d)) := by
  by_cases hc : dictContains a field
  · refine ⟨a, ?_, fun k _ => rfl, Or.inl ⟨(dictContains_true_iff a field).mp hc, rfl⟩⟩
    unfold fillFieldDyn
    rw [if_pos hc]
  · have hnone : dictGet a field = none :=
      (dictContains_false_iff a field).mp (by simpa using hc)
    refine ⟨dictSet a field (dictGetD (defaultsList x) field (.dict [])), ?_, ?_, ?_⟩
    · unfold fillFieldDyn
      rw [if_neg hc, gedv_ok_num, except_bind_ok]
    · intro k hk
      exact dictGet_set_ne a field k _ (fun h => hk h.symm)
    · right
      exact ⟨hnone, dictGetD (defaultsList x) field (.dict []), gedv_ok_num field x,
        dictGet_set_self a field _⟩

/-- The required-field fills succeed on a well-typed analysis and leave a
fully-filled, still well-typed dictionary. -/
theorem fill_required_dyn_ok (a : List (String × PyVal)) (x : ℚ)
    (hwf : WFAnalysisDyn a) :
    ∃ a6, fill_required_dyn a (.num x) = .ok a6 ∧ PostFill a6 := by
  obtain ⟨hcs, hes, hrm⟩ := hwf
  obtain ⟨b1, e1, f1, g1⟩ := fillFieldDyn_spec a "market_sentiment" x
  obtain ⟨b2, e2, f2, g2⟩ := fillFieldDyn_spec b1 "confidence_score" x
  obtain ⟨b3, e3, f3, g3⟩ := fillFieldDyn_spec b2 "recommended_action" x
  obtain ⟨b4, e4, f4, g4⟩ := fillFieldDyn_spec b3 "entry_strategy" x
  obtain ⟨b5, e5, f5, g5⟩ := fillFieldDyn_spec b4 "risk_management" x
  obtain ⟨b6, e6, f6, g6⟩ := fillFieldDyn_spec b5 "reasoning" x
  have t1cs : dictGet b1 "confidence_score" = dictGet a "confidence_score" :=
    f1 _ (by decide)
  have t3cs : dictGet b3 "confidence_score" = dictGet b2 "confidence_score" :=
    f3 _ (by decide)
  have t4cs : dictGet b4 "confidence_score" = dictGet b3 "confidence_score" :=
    f4 _ (by decide)
  have t5cs : dictGet b5 "confidence_score" = dictGet b4 "confidence_score" :=
    f5 _ (by decide)
  have t6cs : dictGet b6 "confidence_score" = dictGet b5 "confidence_score" :=
    f6 _ (by decide)
  have t1es : dictGet b1 "entry_strategy" = dictGet a "entry_strategy" :=
    f1 _ (by decide)
  have t2es : dictGet b2 "entry_strategy" = dictGet b1 "entry_strategy" :=
    f2 _ (by decide)
  have t3es : dictGet b3 "entry_strategy" = dictGet b2 "entry_strategy" :=
    f3 _ (by decide)
  have t5es : dictGet b5 "entry_strategy" = dictGet b4 "entry_strategy" :=
    f5 _ (by decide)
  have t6es : dictGet b6 "entry_strategy" = dictGet b5 "entry_strategy" :=
    f6 _ (by decide)
  have t1rm : dictGet b1 "risk_management" = dictGet a "risk_management" :=
    f1 _ (by decide)
  have t2rm : dictGet b2 "risk_management" = dictGet b1 "risk_management" :=
    f2 _ (by decide)
  have t3rm : dictGet b3 "risk_management" = dictGet b2 "risk_management" :=
    f3 _ (by decide)
  have t4rm : dictGet b4 "risk_management" = dictGet b3 "risk_management" :=
    f4 _ (by decide)
  have t6rm : dictGet b6 "risk_management" = dictGet b5 "risk_management" :=
    f6 _ (by decide)
  refine ⟨b6, ?_, ?_, ?_, ?_⟩
  · unfold fill_required_dyn
    rw [e1, except_bind_ok, e2, except_bind_ok, e3, except_bind_ok, e4,
        except_bind_ok, e5, except_bind_ok, e6]
  · -- confidence score is a number and present
    rcases g2 with ⟨⟨v, hv⟩, heqv⟩ | ⟨_, d, hd, hset⟩
    · rw [t1cs] at heqv hv
      obtain ⟨q, hq⟩ := hcs v hv
      exact ⟨q, by rw [t6cs, t5cs, t4cs, t3cs, heqv, hv, hq]⟩
    · have hdv : d = .num (3/10) := by
        rw [gedv_ok_num] at hd
        exact (Except.ok.inj hd).symm
      exact ⟨3/10, by rw [t6cs, t5cs, t4cs, t3cs, hset, hdv]⟩
  · -- entry strategy is a dictionary with numeric entry price if present
    rcases g4 with ⟨⟨v, hv⟩, heqv⟩ | ⟨_, d, hd, hset⟩
    · rw [t3es, t2es, t1es] at heqv hv
      obtain ⟨l, hl, hnum⟩ := hes v hv
      exact ⟨l, by rw [t6es, t5es, heqv, hv, hl], hnum⟩
    · have hdv : d = .dict [("entry_price", .num x),
          ("entry_condition", .str "market order"), ("position_size_percent", .num 2)] := by
        rw [gedv_ok_num] at hd
        exact (Except.ok.inj hd).symm
      refine ⟨_, by rw [t6es, t5es, hset, hdv], ?_⟩
      intro v hv
      exact ⟨x, by simpa [dictGet] using hv.symm⟩
  · -- risk management is a dictionary with numeric stop and take profit
    rcases g5 with ⟨⟨v, hv⟩, heqv⟩ | ⟨_, d, hd, hset⟩
    · rw [t4rm, t3rm, t2rm, t1rm] at heqv hv
      obtain ⟨l, hl, hnum1, hnum2⟩ := hrm v hv
      exact ⟨l, by rw [t6rm, heqv, hv, hl], hnum1, hnum2⟩
    · have hdv : d = .dict [("stop_loss", .num (x * (98/100))),
          ("take_profit_1", .num (x * (104/100))), ("take_profit_2", .num (x * (108/100))),
          ("risk_reward_ratio", .num 2), ("max_loss_percent", .num 2)] := by
        rw [gedv_ok_num] at hd
        exact (Except.ok.inj hd).symm
      refine ⟨_, by rw [t6rm, hset, hdv], ?_, ?_⟩
      · intro v hv
        exact ⟨x * (98/100), by simpa [dictGet] using hv.symm⟩
      · intro v hv
        exact ⟨x * (104/100), by simpa [dictGet] using hv.symm⟩

theorem postfill_set_cs (a : List (String × PyVal)) (h : PostFill a) (w : ℚ) :
    PostFill (dictSet a "confidence_score" (.num w)) := by
  obtain ⟨_, ⟨l, hl, hn⟩, ⟨l2, hl2, hn1, hn2⟩⟩ := h
  refine ⟨⟨w, dictGet_set_self a _ _⟩, ⟨l, ?_, hn⟩, ⟨l2, ?_, hn1, hn2⟩⟩
  · rw [dictGet_set_ne a _ _ _ (by decide)]
    exact hl
  · rw [dictGet_set_ne a _ _ _ (by decide)]
    exact hl2

/-- The confidence clamp succeeds on a filled, well-typed dictionary. -/
theorem clamp_confidence_dyn_ok (a : List (String × PyVal)) (h : PostFill a) :
    ∃ a2, clamp_confidence_dyn a = .ok a2 ∧ PostFill a2 := by
  obtain ⟨⟨q, hq⟩, _, _⟩ := h
  have hgd0 : dictGetD a "confidence_score" (.num 0) = .num q := by
    simp [dictGetD, hq]
  have hgdh : dictGetD a "confidence_score" (.num (1/2)) = .num q := by
    simp [dictGetD, hq]
  simp only [clamp_confidence_dyn]
  rw [hgd0, show pyLeB (.num 0) (.num q) = .ok (decide (0 ≤ q)) from rfl, except_bind_ok]
  by_cases h0 : (0:ℚ) ≤ q
  · rw [if_pos (by simp [h0]),
        show pyLeB (.num q) (.num 1) = .ok (decide (q ≤ 1)) from rfl, except_bind_ok]
    by_cases h1 : q ≤ 1
    · rw [if_neg (by simp [h1])]
      exact ⟨a, rfl, ⟨q, hq⟩, ‹_›, ‹_›⟩
    · rw [if_pos (by simp [h1]), hgdh,
          show pyMin (.num 1) (.num q) = .ok (.num (min 1 q)) from rfl, except_bind_ok,
          show pyMax (.num 0) (.num (min 1 q)) = .ok (.num (max 0 (min 1 q))) from rfl,
          except_bind_ok]
      exact ⟨_, rfl, postfill_set_cs a ⟨⟨q, hq⟩, ‹_›, ‹_›⟩ _⟩
  · rw [if_neg (by simp [h0]), except_bind_ok, if_pos (by simp), hgdh,
        show pyMin (.num 1) (.num q) = .ok (.num (min 1 q)) from rfl, except_bind_ok,
        show pyMax (.num 0) (.num (min 1 q)) = .ok (.num (max 0 (min 1 q))) from rfl,
        except_bind_ok]
    exact ⟨_, rfl, postfill_set_cs a ⟨⟨q, hq⟩, ‹_›, ‹_›⟩ _⟩

/-- The entry-strategy block succeeds on a filled, well-typed dictionary,
producing a dictionary and a numeric local entry price. -/
theorem entry_block_dyn_ok (a : List (String × PyVal)) (x : ℚ) (h : PostFill a) :
    ∃ esl e, entry_block_dyn a (.num x) = .ok (.dict esl, .num e) := by
  obtain ⟨_, ⟨l, hl, hn⟩, _⟩ := h
  have hgd : dictGetD a "entry_strategy" (.dict []) = .dict l := by
    simp [dictGetD, hl]
  simp only [entry_block_dyn]
  rw [hgd, show pyNotIn "entry_price" (.dict l) = .ok (!(dictContains l "entry_price"))
      from rfl, except_bind_ok]
  by_cases hc : dictContains l "entry_price"
  · rw [if_neg (by simp [hc]), except_bind_ok]
    obtain ⟨v, hv⟩ := (dictContains_true_iff l _).mp hc
    obtain ⟨ev, hev⟩ := hn v hv
    subst hev
    rw [show pyGetItem (.dict l) "entry_price" = .ok (.num ev) by simp [pyGetItem, hv],
        except_bind_ok,
        show pySub (.num ev) (.num x) = .ok (.num (ev - x)) from rfl, except_bind_ok,
        show pyAbs (.num (ev - x)) = .ok (.num |ev - x|) from rfl, except_bind_ok,
        show pyMul (.num x) (.num (5/100)) = .ok (.num (x * (5/100))) from rfl,
        except_bind_ok,
        show pyLtB (.num (x * (5/100))) (.num |ev - x|) =
          .ok (decide (x * (5/100) < |ev - x|)) from rfl, except_bind_ok]
    by_cases hlt : x * (5/100) < |ev - x|
    · rw [if_pos (by simp [hlt]),
          show pySetItem (.dict l) "entry_price" (.num x) =
            .ok (.dict (dictSet l "entry_price" (.num x))) from rfl, except_bind_ok]
      exact ⟨_, ev, rfl⟩
    · rw [if_neg (by simp [hlt]), except_bind_ok]
      exact ⟨l, ev, rfl⟩
  · rw [if_pos (by simp [hc]),
        show pySetItem (.dict l) "entry_price" (.num x) =
          .ok (.dict (dictSet l "entry_price" (.num x))) from rfl, except_bind_ok,
        show pyGetItem (.dict (dictSet l "entry_price" (.num x))) "entry_price" =
          .ok (.num x) by simp [pyGetItem, dictGet_set_self], except_bind_ok,
        show pySub (.num x) (.num x) = .ok (.num (x - x)) from rfl, except_bind_ok,
        show pyAbs (.num (x - x)) = .ok (.num 0) by
          rw [show (x:ℚ) - x = 0 by ring]; simp [pyAbs], except_bind_ok,
        show pyMul (.num x) (.num (5/100)) = .ok (.num (x * (5/100))) from rfl,
        except_bind_ok,
        show pyLtB (.num (x * (5/100))) (.num 0) =
          .ok (decide (x * (5/100) < 0)) from rfl, except_bind_ok]
    by_cases hlt : x * (5/100) < 0
    · rw [if_pos (by simp [hlt]),
          show pySetItem (.dict (dictSet l "entry_price" (.num x))) "entry_price" (.num x) =
            .ok (.dict (dictSet (dictSet l "entry_price" (.num x)) "entry_price" (.num x)))
            from rfl, except_bind_ok]
      exact ⟨_, x, rfl⟩
    · rw [if_neg (by simp [hlt]), except_bind_ok]
      exact ⟨_, x, rfl⟩

/-- The stop-loss block succeeds on a filled, well-typed dictionary: the
resulting risk-management dictionary has a numeric stop loss, and its first
take profit is still a number when present. -/
theorem stop_block_dyn_ok (a : List (String × PyVal)) (x e : ℚ) (h : PostFill a) :
    ∃ rml, stop_block_dyn a (.num x) (.num e) = .ok (.dict rml) ∧
      (∃ s2, dictGet rml "stop_loss" = some (.num s2)) ∧
      NumIfPresent rml "take_profit_1" := by
  obtain ⟨_, _, ⟨l, hl, hns, hnt⟩⟩ := h
  have hgd : dictGetD a "risk_management" (.dict []) = .dict l := by
    simp [dictGetD, hl]
  simp only [stop_block_dyn]
  rw [hgd, show pyNotIn "stop_loss" (.dict l) = .ok (!(dictContains l "stop_loss"))
      from rfl, except_bind_ok]
  have tail : ∀ l1 : List (String × PyVal), (∃ s0, dictGet l1 "stop_loss" = some (.num s0)) →
      NumIfPresent l1 "take_profit_1" →
      ∃ rml, ((pyGetItem (.dict l1) "stop_loss" >>= fun stop_loss =>
          pyMul (.num x) (.num (3/100)) >>= fun msd =>
          pySub (.num e) stop_loss >>= fun d =>
          pyAbs d >>= fun ad =>
          pyLtB msd ad >>= fun b2 =>
          if b2 then
            if isLongDyn a then
              pySub (.num e) msd >>= fun v => pySetItem (.dict l1) "stop_loss" v
            else
              pyAdd (.num e) msd >>= fun v => pySetItem (.dict l1) "stop_loss" v
          else .ok (.dict l1)) : Except String PyVal) = .ok (.dict rml) ∧
        (∃ s2, dictGet rml "stop_loss" = some (.num s2)) ∧
        NumIfPresent rml "take_profit_1" := by
    intro l1 hs0 hnt1
    obtain ⟨s0, hs0⟩ := hs0
    rw [show pyGetItem (.dict l1) "stop_loss" = .ok (.num s0) by simp [pyGetItem, hs0],
        except_bind_ok,
        show pyMul (.num x) (.num (3/100)) = .ok (.num (x * (3/100))) from rfl,
        except_bind_ok,
        show pySub (.num e) (.num s0) = .ok (.num (e - s0)) from rfl, except_bind_ok,
        show pyAbs (.num (e - s0)) = .ok (.num |e - s0|) from rfl, except_bind_ok,
        show pyLtB (.num (x * (3/100))) (.num |e - s0|) =
          .ok (decide (x * (3/100) < |e - s0|)) from rfl, except_bind_ok]
    by_cases hlt : x * (3/100) < |e - s0|
    · rw [if_pos (by simp [hlt])]
      by_cases hlong : isLongDyn a
      · rw [if_pos hlong,
            show pySub (.num e) (.num (x * (3/100))) = .ok (.num (e - x * (3/100)))
              from rfl, except_bind_ok,
            show pySetItem (.dict l1) "stop_loss" (.num (e - x * (3/100))) =
              .ok (.dict (dictSet l1 "stop_loss" (.num (e - x * (3/100))))) from rfl]
        refine ⟨_, rfl, ⟨_, dictGet_set_self l1 _ _⟩, ?_⟩
        intro v hv
        rw [dictGet_set_ne l1 _ _ _ (by decide)] at hv
        exact hnt1 v hv
      · rw [if_neg hlong,
            show pyAdd (.num e) (.num (x * (3/100))) = .ok (.num (e + x * (3/100)))
              from rfl, except_bind_ok,
            show pySetItem (.dict l1) "stop_loss" (.num (e + x * (3/100))) =
              .ok (.dict (dictSet l1 "stop_loss" (.num (e + x * (3/100))))) from rfl]
        refine ⟨_, rfl, ⟨_, dictGet_set_self l1 _ _⟩, ?_⟩
        intro v hv
        rw [dictGet_set_ne l1 _ _ _ (by decide)] at hv
        exact hnt1 v hv
    · rw [if_neg (by simp [hlt])]
      exact ⟨l1, rfl, ⟨s0, hs0⟩, hnt1⟩
  by_cases hc : dictContains l "stop_loss"
  · rw [if_neg (by simp [hc]), except_bind_ok]
    obtain ⟨v, hv⟩ := (dictContains_true_iff l _).mp hc
    obtain ⟨s0, hs0⟩ := hns v hv
    subst hs0
    exact tail l ⟨s0, hv⟩ hnt
  · rw [if_pos (by simp [hc]),
        show pyMul (.num x) (.num (98/100)) = .ok (.num (x * (98/100))) from rfl,
        except_bind_ok,
        show pySetItem (.dict l) "stop_loss" (.num (x * (98/100))) =
          .ok (.dict (dictSet l "stop_loss" (.num (x * (98/100))))) from rfl,
        except_bind_ok]
    refine tail _ ⟨_, dictGet_set_self l _ _⟩ ?_
    intro v hv
    rw [dictGet_set_ne l _ _ _ (by decide)] at hv
    exact hnt v hv

theorem risk_dyn_ok (rml : List (String × PyVal)) (s2 e : ℚ)
    (hstop : dictGet rml "stop_loss" = some (.num s2)) :
    risk_dyn (.dict rml) (.num e) = .ok (.num |e - s2|) := by
  simp only [risk_dyn]
  rw [show pyGetItem (.dict rml) "stop_loss" = .ok (.num s2) by simp [pyGetItem, hstop],
      except_bind_ok,
      show pySub (.num e) (.num s2) = .ok (.num (e - s2)) from rfl, except_bind_ok]
  rfl

/-- The take-profit block succeeds and keeps the take profit numeric. -/
theorem tp_block_dyn_ok (a rml : List (String × PyVal)) (e r : ℚ)
    (htp : NumIfPresent rml "take_profit_1") :
    ∃ rml3, tp_block_dyn a (.dict rml) (.num e) (.num r) = .ok (.dict rml3) ∧
      NumIfPresent rml3 "take_profit_1" := by
  have hcur : ∃ t, dictGetD rml "take_profit_1" (.num 0) = .num t := by
    unfold dictGetD
    cases hg : dictGet rml "take_profit_1" with
    | none => exact ⟨0, rfl⟩
    | some v =>
        obtain ⟨t, ht⟩ := htp v hg
        exact ⟨t, by simp [ht]⟩
  obtain ⟨t, ht⟩ := hcur
  simp only [tp_block_dyn]
  rw [show pyMul (.num r) (.num 2) = .ok (.num (r * 2)) from rfl, except_bind_ok]
  by_cases hlong : isLongDyn a
  · rw [if_pos hlong,
        show pyAdd (.num e) (.num (r * 2)) = .ok (.num (e + r * 2)) from rfl,
        except_bind_ok,
        show pyDictGetD (.dict rml) "take_profit_1" (.num 0) =
          .ok (dictGetD rml "take_profit_1" (.num 0)) from rfl, except_bind_ok, ht,
        show pyLtB (.num t) (.num (e + r * 2)) = .ok (decide (t < e + r * 2)) from rfl,
        except_bind_ok]
    by_cases hb : t < e + r * 2
    · rw [if_pos (by simp [hb]),
          show pyMul (.num (e + r * 2)) (.num (3/2)) = .ok (.num ((e + r * 2) * (3/2)))
            from rfl, except_bind_ok,
          show pySetItem (.dict rml) "take_profit_1" (.num (e + r * 2)) =
            .ok (.dict (dictSet rml "take_profit_1" (.num (e + r * 2)))) from rfl,
          except_bind_ok]
      refine ⟨_, rfl, ?_⟩
      intro v hv
      rw [dictGet_set_ne _ _ _ _ (by decide), dictGet_set_self] at hv
      exact ⟨_, (Option.some.inj hv).symm⟩
    · rw [if_neg (by simp [hb])]
      exact ⟨rml, rfl, htp⟩
  · rw [if_neg hlong,
        show pySub (.num e) (.num (r * 2)) = .ok (.num (e - r * 2)) from rfl,
        except_bind_ok,
        show pyDictGetD (.dict rml) "take_profit_1" (.num 0) =
          .ok (dictGetD rml "take_profit_1" (.num 0)) from rfl, except_bind_ok, ht,
        show pyLtB (.num (e - r * 2)) (.num t) = .ok (decide (e - r * 2 < t)) from rfl,
        except_bind_ok]
    by_cases hb : e - r * 2 < t
    · rw [if_pos (by simp [hb]),
          show pyDiv (.num (e - r * 2)) (.num (3/2)) = .ok (.num ((e - r * 2) / (3/2)))
            by simp [pyDiv], except_bind_ok,
          show pySetItem (.dict rml) "take_profit_1" (.num (e - r * 2)) =
            .ok (.dict (dictSet rml "take_profit_1" (.num (e - r * 2)))) from rfl,
          except_bind_ok]
      refine ⟨_, rfl, ?_⟩
      intro v hv
      rw [dictGet_set_ne _ _ _ _ (by decide), dictGet_set_self] at hv
      exact ⟨_, (Option.some.inj hv).symm⟩
    · rw [if_neg (by simp [hb])]
      exact ⟨rml, rfl, htp⟩

/-- The risk/reward recomputation succeeds. -/
theorem rr_block_dyn_ok (rml3 : List (String × PyVal)) (e r : ℚ)
    (htp : NumIfPresent rml3 "take_profit_1") :
    ∃ out, rr_block_dyn (.dict rml3) (.num e) (.num r) = .ok out := by
  have htp1 : ∃ t, dictGetD rml3 "take_profit_1" (.num e) = .num t := by
    unfold dictGetD
    cases hg : dictGet rml3 "take_profit_1" with
    | none => exact ⟨e, rfl⟩
    | some v =>
        obtain ⟨t, ht⟩ := htp v hg
        exact ⟨t, by simp [ht]⟩
  obtain ⟨t, ht⟩ := htp1
  simp only [rr_block_dyn]
  rw [show pyDictGetD (.dict rml3) "take_profit_1" (.num e) =
        .ok (dictGetD rml3 "take_profit_1" (.num e)) from rfl, except_bind_ok, ht,
      show pySub (.num t) (.num e) = .ok (.num (t - e)) from rfl, except_bind_ok,
      show pyAbs (.num (t - e)) = .ok (.num |t - e|) from rfl, except_bind_ok,
      show pyLtB (.num 0) (.num r) = .ok (decide (0 < r)) from rfl, except_bind_ok]
  by_cases hr : (0:ℚ) < r
  · rw [if_pos (by simp [hr]),
        show pyDiv (.num |t - e|) (.num r) = .ok (.num (|t - e| / r)) by
          simp [pyDiv, ne_of_gt hr], except_bind_ok]
    exact ⟨_, rfl⟩
  · rw [if_neg (by simp [hr]), except_bind_ok]
    exact ⟨_, rfl⟩

/-- C4 (amended): `validate_enhanced_analysis` never raises on dictionaries
whose field values have the expected types (numeric confidence and price
fields, dictionary-valued `entry_strategy` / `risk_management`); an
ill-typed value raises `TypeError` out of the function, which has no
handler — the caller (`analyze_market`) catches it and substitutes the
mock fallback analysis. -/
theorem C4_no_raise_on_welltyped (a m : List (String × PyVal)) (now : String)
    (ha : WFAnalysisDyn a) (hm : WFMarketDyn m) :
    ∃ out, validate_enhanced_analysis_dyn a m now = .ok out := by
  have hcp : ∃ x, dictGetD m "current_price" (.num 50000) = .num x := by
    unfold dictGetD
    cases hg : dictGet m "current_price" with
    | none => exact ⟨50000, rfl⟩
    | some v =>
        obtain ⟨x, hx⟩ := hm v hg
        exact ⟨x, by simp [hx]⟩
  obtain ⟨x, hx⟩ := hcp
  simp only [validate_enhanced_analysis_dyn]
  rw [hx]
  obtain ⟨a1, he1, hp1⟩ := fill_required_dyn_ok a x ha
  rw [he1, except_bind_ok]
  obtain ⟨a2, he2, hp2⟩ := clamp_confidence_dyn_ok a1 hp1
  rw [he2, except_bind_ok]
  obtain ⟨esl, e, he3⟩ := entry_block_dyn_ok a2 x hp2
  rw [he3, except_bind_ok]
  obtain ⟨rml, he4, ⟨s2, hs2⟩, htp⟩ := stop_block_dyn_ok a2 x e hp2
  rw [he4, except_bind_ok]
  rw [risk_dyn_ok rml s2 e hs2, except_bind_ok]
  obtain ⟨rml3, he5, htp3⟩ := tp_block_dyn_ok a2 rml e |e - s2| htp
  rw [he5, except_bind_ok]
  obtain ⟨out4, he6⟩ := rr_block_dyn_ok rml3 e |e - s2| htp3
  rw [he6, except_bind_ok]
  exact ⟨_, rfl⟩

/-- C4 witness: the amended theorem applied to concrete well-typed
dictionaries (the empty recommendation and the C4 market data). -/
theorem C4_witness :
    ∃ out, validate_enhanced_analysis_dyn [] c4_market "t" = .ok out :=
  C4_no_raise_on_welltyped [] c4_market "t"
    ⟨fun v hv => absurd hv (by simp [dictGet]),
     fun v hv => absurd hv (by simp [dictGet]),
     fun v hv => absurd hv (by simp [dictGet])⟩
    (fun v hv => by
      refine ⟨50000, ?_⟩
      simpa [c4_market, dictGet] using hv.symm)

end TradingBot
